import Mathlib

/-!
# waitforservices: a verification development

Shallow embedding of `main.go` (package `main`): the discovery loop
`loadServicesFromEnv`, the retry loop `waitForTcpConn`, the arithmetic that
arms the deadline timer, and the goroutines of `main` as a labelled
transition system whose labels are the atomic actions of the program.

A Go string is a byte sequence; it is embedded as a list of characters, one
per byte (the keys, suffixes, signs and digits the program inspects are all
ASCII).
-/

namespace WaitForServices

/-! ## Strings and the standard-library calls used by the program -/

/-- A Go string. -/
abbrev GoString := List Char

/-- The call `strings.HasSuffix(s, suffix)`. -/
def HasSuffix (s suffix : GoString) : Bool :=
  suffix.length ≤ s.length && s.drop (s.length - suffix.length) == suffix

/-- The expression `strings.SplitN(line, "=", 2)[0]`: the text before the first
`=`, the whole line when it has none. -/
def splitKey (line : GoString) : GoString :=
  line.takeWhile (fun c => c != '=')

/-- The text after the first `=` of a line that has one. -/
def splitValue (line : GoString) : GoString :=
  (line.dropWhile (fun c => c != '=')).drop 1

/-- The call `os.Getenv(key)` over the environment block `environ`: the value
of the first line `key=value`, and the empty string when the key is empty or
no line defines it. -/
def Getenv (environ : List GoString) (key : GoString) : GoString :=
  if key.isEmpty then []
  else
    match environ.find? (fun line => line.contains '=' && splitKey line == key) with
    | some line => splitValue line
    | none => []

/-- The loop of `strconv.Atoi` over the digits: `none` on a byte that is
not a decimal digit. -/
def parseDigits : GoString → Nat → Option Nat
  | [], n => some n
  | ch :: rest, n =>
    if '0' ≤ ch ∧ ch ≤ '9' then parseDigits rest (n * 10 + (ch.toNat - '0'.toNat))
    else none

/-- The call `strconv.Atoi(s)` for a 64-bit `int`: an optional sign, then
at least one decimal digit, and a value that fits the type; `none` stands for
a non-nil error. -/
def Atoi (s : GoString) : Option Int :=
  let neg : Bool := s.head? == some '-'
  let body : GoString := if s.head? == some '-' ∨ s.head? == some '+' then s.drop 1 else s
  if body.isEmpty then none
  else
    match parseDigits body 0 with
    | none => none
    | some n =>
      let v : Int := if neg then -(n : Int) else (n : Int)
      if -(2 : Int) ^ 63 ≤ v ∧ v < (2 : Int) ^ 63 then some v else none

/-- The verb `%d` of `fmt` on an integer. -/
def fmtInt (n : Int) : GoString :=
  (toString n).toList

/-! ## Data model -/

/-- The struct `Service`. -/
structure Service where
  Name : GoString
  Address : GoString
  Port : Int
deriving DecidableEq, Repr

/-- The method `Service.AddressAndPort`: `fmt.Sprintf("%s:%d", s.Address, s.Port)`. -/
def Service.AddressAndPort (s : Service) : GoString :=
  s.Address ++ ":".toList ++ fmtInt s.Port

/-! ## Discovery: `loadServicesFromEnv` -/

/-- The suffix tested by `loadServicesFromEnv`. -/
def addrSuffix : GoString := "_TCP_ADDR".toList

/-- The suffix of the port variable. -/
def portSuffix : GoString := "_TCP_PORT".toList

/-- The warning logged for an entry whose port does not convert. -/
def skipMessage (portKey portStr name : GoString) : GoString :=
  "Failed to convert '".toList ++ portKey ++ "' to int, value: '".toList ++ portStr
    ++ "' - skipping service '".toList ++ name ++ "'".toList

/-- One iteration of the loop of `loadServicesFromEnv` over `line`, on the
slice `services` built so far and the lines logged so far. -/
def loadServicesIter (environ : List GoString) (acc : List Service × List GoString)
    (line : GoString) : List Service × List GoString :=
  let addrKey := splitKey line
  if HasSuffix addrKey addrSuffix then
    let addr := Getenv environ addrKey
    let name := addrKey.take (addrKey.length - 9)
    let portKey := name ++ portSuffix
    let portStr := Getenv environ portKey
    match Atoi portStr with
    | none => (acc.1, acc.2 ++ [skipMessage portKey portStr name])
    | some port => (acc.1 ++ [{ Name := name, Address := addr, Port := port }], acc.2)
  else acc

/-- The function `loadServicesFromEnv` with its log output, `environ` being
what `os.Environ()` returns. -/
def loadServicesFromEnvLog (environ : List GoString) : List Service × List GoString :=
  environ.foldl (loadServicesIter environ) ([], [])

/-- The function `loadServicesFromEnv`: the returned slice. -/
def loadServicesFromEnv (environ : List GoString) : List Service :=
  (loadServicesFromEnvLog environ).1

/-- The discovery contract in the words of the specification: the Service an
environment entry stands for, if any. An entry counts when its key ends in
`_TCP_ADDR` and the value of `<NAME>_TCP_PORT` parses as an integer. -/
def specEntry (environ : List GoString) (line : GoString) : Option Service :=
  let key := splitKey line
  if HasSuffix key addrSuffix then
    let name := key.take (key.length - 9)
    (Atoi (Getenv environ (name ++ portSuffix))).map
      (fun port => { Name := name, Address := Getenv environ key, Port := port })
  else none

/-- The discovery contract in the words of the specification: the Services of
the entries that count, in environment order, and nothing else. -/
def specServices (environ : List GoString) : List Service :=
  environ.filterMap (specEntry environ)

/-! ## The duration the deadline timer is armed with -/

/-- Wrapping of an integer to the range of `int64`. -/
def wrapInt64 (x : Int) : Int :=
  (x + 2 ^ 63) % 2 ^ 64 - 2 ^ 63

/-- The range of `int64`. -/
def isInt64 (x : Int) : Prop :=
  -(2 : Int) ^ 63 ≤ x ∧ x < (2 : Int) ^ 63

instance (x : Int) : Decidable (isInt64 x) := by
  unfold isInt64; infer_instance

/-- The constant `time.Second`, in nanoseconds. -/
def Second : Int := 1000000000

/-- The expression `time.Duration(*timeout)*time.Second`: a multiplication
of two `int64` values, which wraps. -/
def timerDuration (timeout : Int) : Int :=
  wrapInt64 (wrapInt64 timeout * Second)

/-! ## The Prober: `waitForTcpConn` as a sequential loop -/

/-- How a Prober ends: `up` is the log line "is up", `timedOut` the log line
"timed out". -/
inductive Outcome where
  | up
  | timedOut
deriving DecidableEq, Repr

/-- What one pass through the loop body observes: the error returned by
`net.DialTimeout` (`none` is `nil`: the connection was made) and the value of
the local `cancelled` read by the condition on line 99. -/
structure Attempt where
  err : Option GoString
  cancelled : Int

/-- The condition `cancelled == 1 && err != nil` of line 99. -/
def cancelCheck (cancelled : Int) (err : Option GoString) : Bool :=
  cancelled == 1 && err.isSome

/-- The line logged on line 106. -/
def upMessage (service : Service) : GoString :=
  "Service ".toList ++ service.Name ++ " (".toList ++ service.AddressAndPort ++ ") is up".toList

/-- The line logged on line 100, `lastErr` being the text of the error. -/
def timedOutMessage (service : Service) (lastErr : GoString) : GoString :=
  "Service ".toList ++ service.Name ++ " (".toList ++ service.AddressAndPort
    ++ ") timed out. Last error: ".toList ++ lastErr

/-- What a finished Prober has done: its outcome, the number of calls of
`net.DialTimeout` it made, and the line it logged. -/
structure ProbeReport where
  outcome : Outcome
  attempts : Nat
  log : GoString
deriving DecidableEq, Repr

/-- The loop `for err != nil` of `waitForTcpConn`, entered with the current
`err` and the number `n` of attempts made so far; `world n` is what attempt
`n` observes. One unit of fuel pays for one evaluation of the loop condition. -/
def waitForTcpConnLoop (service : Service) (world : Nat → Attempt) :
    Nat → Option GoString → Nat → Option ProbeReport
  | 0, _, _ => none
  | fuel + 1, err, n =>
    match err with
    | none => some { outcome := Outcome.up, attempts := n, log := upMessage service }
    | some _ =>
      let a := world n
      if cancelCheck a.cancelled a.err then
        some { outcome := Outcome.timedOut, attempts := n + 1,
               log := timedOutMessage service (a.err.getD []) }
      else waitForTcpConnLoop service world fuel a.err (n + 1)

/-- The function `waitForTcpConn`: `err` starts as `errors.New("init")`. -/
def waitForTcpConn (service : Service) (world : Nat → Attempt) (fuel : Nat) :
    Option ProbeReport :=
  waitForTcpConnLoop service world fuel (some "init".toList) 0

/-! ## The whole program as a transition system -/

/-- The two ways a run resolves. -/
inductive RunOutcome where
  | success
  | timeout
deriving DecidableEq, Repr

/-- How `main` ends: the outcome, the exit status of the process and the last
line logged. -/
structure Resolution where
  outcome : RunOutcome
  exitCode : Nat
  message : GoString
deriving DecidableEq, Repr

/-- Lines 57 to 61 of `main`, `stopped` being the value of `timer.Stop()`. -/
def resolve (timeout : Int) (stopped : Bool) : Resolution :=
  if !stopped then
    { outcome := RunOutcome.timeout, exitCode := 1,
      message := "Error: One or more services timed out after ".toList ++ fmtInt timeout
        ++ " second(s)".toList }
  else
    { outcome := RunOutcome.success, exitCode := 0, message := "All services are up!".toList }

/-- Where the goroutine of `main` stands: in the loop of lines 38 to 44 about
to handle `services[i]` (and, past the last one, about to arm the timer), at
`wg.Wait()`, at `timer.Stop()`, or over. -/
inductive MainPc where
  | spawning (i : Nat)
  | waiting
  | stopping
  | exited (r : Resolution)
deriving DecidableEq, Repr

/-- The timer made by `time.AfterFunc`: not made yet, pending with its expiry
time, expired (its function has been started), or stopped. -/
inductive TimerState where
  | unset
  | armed (due : Int)
  | expired
  | stopped
deriving DecidableEq, Repr

/-- The method `Timer.Stop`: `true` when the call stops a pending timer,
`false` when the timer has already expired or been stopped. -/
def TimerState.Stop : TimerState → Bool × TimerState
  | TimerState.armed _ => (true, TimerState.stopped)
  | t => (false, t)

/-- The goroutine running the function given to `time.AfterFunc`. -/
inductive CallbackPc where
  | idle
  | running
  | finished
deriving DecidableEq, Repr

/-- The goroutine of lines 89 to 92: not started, blocked in `<-cancel`, past
the receive, past the store. -/
inductive WatcherPc where
  | unborn
  | blocked
  | received
  | stored
deriving DecidableEq, Repr

/-- Where the goroutine of lines 40 to 43 stands: before line 88, at the loop
condition, between `net.DialTimeout` and the `if`, back from `waitForTcpConn`,
past `wg.Done()`. -/
inductive ProberPc where
  | start
  | loopHead
  | dialed
  | returned
  | finished
deriving DecidableEq, Repr

/-- One Prober: its argument, its locals `cancelled` and `err`, its two
goroutines, the number of dials made and the outcome it logged. -/
structure Prober where
  service : Service
  cancelled : Int
  watcher : WatcherPc
  pc : ProberPc
  err : Option GoString
  attempts : Nat
  report : Option Outcome
deriving DecidableEq, Repr

/-- A Prober goroutine that has just been spawned. -/
def Prober.spawn (service : Service) : Prober :=
  { service := service, cancelled := 0, watcher := WatcherPc.unborn, pc := ProberPc.start,
    err := none, attempts := 0, report := none }

/-- The inputs of a run: the slice returned by `loadServicesFromEnv`, the
value of the flag `-timeout`, and the network: `dial i n` is the error that
attempt `n` of the Prober of `services[i]` gets from `net.DialTimeout`. -/
structure Config where
  services : List Service
  timeout : Int
  dial : Nat → Nat → Option GoString

/-- The state of the process: the monotonic clock in nanoseconds, `main`, the
counter of `wg`, the number of `close(cancel)` executed, the timer and its
function, the Probers in spawn order, and the lines logged. -/
structure State where
  now : Int
  main : MainPc
  wg : Int
  closes : Nat
  timer : TimerState
  callback : CallbackPc
  probers : List Prober
  log : List GoString
deriving DecidableEq, Repr

/-- The channel `cancel` is closed: the Cancellation Signal is SET. -/
def State.cancelSet (s : State) : Bool :=
  0 < s.closes

/-- The state in which `main` reaches line 35. -/
def State.init : State :=
  { now := 0, main := MainPc.spawning 0, wg := 0, closes := 0, timer := TimerState.unset,
    callback := CallbackPc.idle, probers := [], log := [] }

/-- The atomic actions of the program, and the passing of `d` nanoseconds. -/
inductive Event where
  | mainSpawn
  | mainArm
  | mainWait
  | mainStop
  | timerExpire
  | timerClose
  | tick (d : Nat)
  | proberStart (i : Nat)
  | watcherRecv (i : Nat)
  | watcherStore (i : Nat)
  | proberDial (i : Nat)
  | proberCheck (i : Nat)
  | proberExit (i : Nat)
  | proberDone (i : Nat)
deriving DecidableEq, Repr

/-- An action of Prober `i`: `f` gives its next state when the action is
enabled. -/
def State.onProber (s : State) (i : Nat) (f : Prober → Option Prober) : Option State :=
  match s.probers[i]? with
  | none => none
  | some p =>
    match f p with
    | none => none
    | some q => some { s with probers := s.probers.set i q }

/-- Lines 38 to 44, one iteration: `wg.Add(1)` and the `go` statement. -/
def stepMainSpawn (cfg : Config) (s : State) : Option State :=
  match s.main with
  | MainPc.spawning i =>
    match cfg.services[i]? with
    | some service =>
      some { s with main := MainPc.spawning (i + 1), wg := s.wg + 1,
                    probers := s.probers ++ [Prober.spawn service] }
    | none => none
  | _ => none

/-- Line 46: the loop is over and `time.AfterFunc` makes the timer. -/
def stepMainArm (cfg : Config) (s : State) : Option State :=
  match s.main with
  | MainPc.spawning i =>
    if cfg.services.length ≤ i then
      some { s with main := MainPc.waiting,
                    timer := TimerState.armed (s.now + timerDuration cfg.timeout) }
    else none
  | _ => none

/-- Line 50: `wg.Wait()` returns once the counter is zero. -/
def stepMainWait (s : State) : Option State :=
  match s.main with
  | MainPc.waiting => if s.wg = 0 then some { s with main := MainPc.stopping } else none
  | _ => none

/-- Lines 57 to 61: `timer.Stop()`, the log line and the end of the process. -/
def stepMainStop (cfg : Config) (s : State) : Option State :=
  match s.main with
  | MainPc.stopping =>
    let r := resolve cfg.timeout s.timer.Stop.1
    some { s with main := MainPc.exited r, timer := s.timer.Stop.2, log := s.log ++ [r.message] }
  | _ => none

/-- The runtime expires the pending timer once its time has come and starts
its function in a goroutine of its own. -/
def stepTimerExpire (s : State) : Option State :=
  match s.timer with
  | TimerState.armed due =>
    if due ≤ s.now then
      some { s with timer := TimerState.expired, callback := CallbackPc.running }
    else none
  | _ => none

/-- Line 47: `close(cancel)`. -/
def stepTimerClose (s : State) : Option State :=
  match s.callback with
  | CallbackPc.running => some { s with closes := s.closes + 1, callback := CallbackPc.finished }
  | _ => none

/-- Lines 88 to 95: the locals and the `go` statement of the watcher. -/
def stepProberStart (p : Prober) : Option Prober :=
  match p.pc with
  | ProberPc.start =>
    some { p with cancelled := 0, watcher := WatcherPc.blocked, err := some "init".toList,
                  pc := ProberPc.loopHead }
  | _ => none

/-- Line 90: the receive from `cancel` returns once the channel is closed. -/
def stepWatcherRecv (cancelSet : Bool) (p : Prober) : Option Prober :=
  match p.watcher with
  | WatcherPc.blocked => if cancelSet then some { p with watcher := WatcherPc.received } else none
  | _ => none

/-- Line 91: `atomic.StoreInt32(&cancelled, 1)`. -/
def stepWatcherStore (p : Prober) : Option Prober :=
  match p.watcher with
  | WatcherPc.received => some { p with cancelled := 1, watcher := WatcherPc.stored }
  | _ => none

/-- Lines 96 and 97: the loop condition holds and `net.DialTimeout` returns. -/
def stepProberDial (result : Option GoString) (p : Prober) : Option Prober :=
  match p.pc, p.err with
  | ProberPc.loopHead, some _ =>
    some { p with err := result, attempts := p.attempts + 1, pc := ProberPc.dialed }
  | _, _ => none

/-- Lines 99 to 103: the `if` after the dial. -/
def stepProberCheck (p : Prober) : Option Prober :=
  match p.pc with
  | ProberPc.dialed =>
    if cancelCheck p.cancelled p.err then
      some { p with pc := ProberPc.returned, report := some Outcome.timedOut }
    else some { p with pc := ProberPc.loopHead }
  | _ => none

/-- Lines 96, 105 and 106: the loop condition fails and the Prober reports. -/
def stepProberExit (p : Prober) : Option Prober :=
  match p.pc, p.err with
  | ProberPc.loopHead, none => some { p with pc := ProberPc.returned, report := some Outcome.up }
  | _, _ => none

/-- Line 42: `wg.Done()`. -/
def stepProberDone (p : Prober) : Option Prober :=
  match p.pc with
  | ProberPc.returned => some { p with pc := ProberPc.finished }
  | _ => none

/-- The line a Prober logs when it returns. -/
def reportLine (p : Prober) : GoString :=
  match p.report with
  | some Outcome.timedOut => timedOutMessage p.service (p.err.getD [])
  | _ => upMessage p.service

/-- One action of a process that is still running. -/
def stepRunning (cfg : Config) (s : State) : Event → Option State
  | Event.mainSpawn => stepMainSpawn cfg s
  | Event.mainArm => stepMainArm cfg s
  | Event.mainWait => stepMainWait s
  | Event.mainStop => stepMainStop cfg s
  | Event.timerExpire => stepTimerExpire s
  | Event.timerClose => stepTimerClose s
  | Event.tick d => some { s with now := s.now + d }
  | Event.proberStart i => s.onProber i stepProberStart
  | Event.watcherRecv i => s.onProber i (stepWatcherRecv s.cancelSet)
  | Event.watcherStore i => s.onProber i stepWatcherStore
  | Event.proberDial i => s.onProber i (fun p => stepProberDial (cfg.dial i p.attempts) p)
  | Event.proberCheck i =>
    (s.onProber i stepProberCheck).map (fun t =>
      match t.probers[i]? with
      | some q => if q.pc = ProberPc.returned then { t with log := t.log ++ [reportLine q] } else t
      | none => t)
  | Event.proberExit i =>
    (s.onProber i stepProberExit).map (fun t =>
      match t.probers[i]? with
      | some q => { t with log := t.log ++ [reportLine q] }
      | none => t)
  | Event.proberDone i => (s.onProber i stepProberDone).map (fun t => { t with wg := t.wg - 1 })

/-- One action of the program; once `main` is over the process is gone and
nothing runs any more. -/
def step (cfg : Config) (s : State) (e : Event) : Option State :=
  match s.main with
  | MainPc.exited _ => none
  | _ => stepRunning cfg s e

/-- The state after the actions `es`, `none` when one of them is not enabled. -/
def run (cfg : Config) : State → List Event → Option State
  | s, [] => some s
  | s, e :: es =>
    match step cfg s e with
    | none => none
    | some t => run cfg t es

/-- Prober `i` has reported `o`. -/
def State.reported (s : State) (i : Nat) (o : Outcome) : Bool :=
  match s.probers[i]? with
  | some p => p.report == some o
  | none => false

/-! ## Invariants of the transition system -/

/-- The number of Probers that have not yet called `wg.Done()`. -/
def pending (ps : List Prober) : Nat :=
  ps.countP (fun p => p.pc != ProberPc.finished)

/-- The endpoint `services[i]` never accepts a connection: every dial of its
Prober returns an error. -/
def Config.neverUp (cfg : Config) (i : Nat) : Prop :=
  ∀ n, cfg.dial i n ≠ none

/-- What holds of Prober `i` in every reachable state, `closes` being the
number of `close(cancel)` executed so far. -/
structure ProberInv (cfg : Config) (closes : Nat) (i : Nat) (p : Prober) : Prop where
  flag : p.cancelled = 0 ∨ p.cancelled = 1
  fresh : p.pc = ProberPc.start → p.cancelled = 0 ∧ p.watcher = WatcherPc.unborn
  stored : p.cancelled = 1 → p.watcher = WatcherPc.stored
  woken : p.watcher = WatcherPc.received ∨ p.watcher = WatcherPc.stored → 0 < closes
  timedOut : p.report = some Outcome.timedOut → p.cancelled = 1
  reported : p.pc = ProberPc.returned ∨ p.pc = ProberPc.finished → p.report ≠ none
  failing : cfg.neverUp i → p.err = none → p.pc = ProberPc.start
  unreported : cfg.neverUp i → p.report ≠ some Outcome.up

/-- What holds in every reachable state of the program. -/
structure Inv (cfg : Config) (s : State) : Prop where
  spawned : ∀ i, s.main = MainPc.spawning i →
    s.probers.length = i ∧ i ≤ cfg.services.length ∧ s.timer = TimerState.unset
  allSpawned : (∀ i, s.main ≠ MainPc.spawning i) → s.probers.length = cfg.services.length
  armed : s.main = MainPc.waiting ∨ s.main = MainPc.stopping →
    (∃ due, s.timer = TimerState.armed due) ∨ s.timer = TimerState.expired
  joined : s.main = MainPc.stopping ∨ (∃ r, s.main = MainPc.exited r) → s.wg = 0
  resolved : ∀ r, s.main = MainPc.exited r →
    (s.timer = TimerState.stopped ∧ r = resolve cfg.timeout true)
      ∨ (s.timer = TimerState.expired ∧ r = resolve cfg.timeout false)
  started : s.callback = CallbackPc.idle ↔ s.timer ≠ TimerState.expired
  closed : s.closes = if s.callback = CallbackPc.finished then 1 else 0
  counter : s.wg = (pending s.probers : Int)
  probers : ∀ i p, s.probers[i]? = some p → ProberInv cfg s.closes i p
  clock : 0 ≤ s.now
  due : ∀ d, s.timer = TimerState.armed d → timerDuration cfg.timeout ≤ d
  fired : s.timer = TimerState.expired → timerDuration cfg.timeout ≤ s.now

/-! ## Concrete runs -/

/-- An endpoint on the local host. -/
def serviceA : Service :=
  { Name := "A".toList, Address := "127.0.0.1".toList, Port := 8080 }

/-- One endpoint that accepts the first connection, timeout 5 seconds. -/
def configUp : Config :=
  { services := [serviceA], timeout := 5, dial := fun _ _ => none }

/-- One endpoint that refuses every connection, timeout 2 seconds. -/
def configDown : Config :=
  { services := [serviceA], timeout := 2, dial := fun _ _ => some "connection refused".toList }

/-- No endpoint at all. -/
def configEmpty (timeout : Int) : Config :=
  { services := [], timeout := timeout, dial := fun _ _ => none }

/-- The Prober of `configUp` connects and reports at 4.999999999 s. -/
def traceUpReported : List Event :=
  [Event.mainSpawn, Event.mainArm, Event.proberStart 0, Event.tick 4999999999,
   Event.proberDial 0, Event.proberCheck 0, Event.proberExit 0, Event.proberDone 0]

/-- After `traceUpReported`: `main` gets through `wg.Wait()` and `timer.Stop()`
before the deadline. -/
def traceUpInTime : List Event :=
  traceUpReported ++ [Event.mainWait, Event.mainStop]

/-- After `traceUpReported`: the timer expires at 5 s, after the report and
before `main` calls `timer.Stop()`. -/
def traceUpRace : List Event :=
  traceUpReported ++ [Event.tick 1, Event.timerExpire, Event.mainWait, Event.mainStop]

/-- The Prober of `configDown` fails twice, the second time after the timer
has closed the channel, and `main` resolves. -/
def traceDown : List Event :=
  [Event.mainSpawn, Event.mainArm, Event.proberStart 0, Event.proberDial 0, Event.proberCheck 0,
   Event.tick 2000000000, Event.timerExpire, Event.timerClose, Event.watcherRecv 0,
   Event.watcherStore 0, Event.proberDial 0, Event.proberCheck 0, Event.proberDone 0,
   Event.mainWait, Event.mainStop]

/-- The run of `traceDown` up to the join. -/
def traceDownJoined : List Event :=
  traceDown.take 14

/-- The run of `traceDown` up to the store of the watcher. -/
def traceDownClosed : List Event :=
  traceDown.take 9

/-- With no endpoint and a timer that is due at once: the timer expires before
`main` calls `timer.Stop()`, no time having passed. -/
def traceEmptyFired : List Event :=
  [Event.mainArm, Event.timerExpire, Event.mainWait, Event.mainStop]

/-- With no endpoint: `main` goes straight through. -/
def traceEmptyDirect : List Event :=
  [Event.mainArm, Event.mainWait, Event.mainStop]

/-- Two attempts that fail with the flag unset, then one that connects while
the flag is already set. -/
def worldThirdUp (n : Nat) : Attempt :=
  if n < 2 then { err := some "connection refused".toList, cancelled := 0 }
  else { err := none, cancelled := 1 }

/-- Two attempts that fail with the flag unset, then failures with the flag
set. -/
def worldNeverUp (n : Nat) : Attempt :=
  if n < 2 then { err := some "connection refused".toList, cancelled := 0 }
  else { err := some "i/o timeout".toList, cancelled := 1 }

/-- The state of `configDown` after `traceDownJoined`: `main` is at the disarm
query. -/
def stateDownJoined : State :=
  (run configDown State.init traceDownJoined).getD State.init

/-- The state of `configDown` after `traceDown`: the process is over. -/
def stateDownExited : State :=
  (run configDown State.init traceDown).getD State.init

/-- The state of `configDown` after `traceDownClosed`: the channel is closed
and the watcher is about to store. -/
def stateDownClosed : State :=
  (run configDown State.init traceDownClosed).getD State.init

/-- The state of `configUp` once its Prober has reported and `wg.Wait()` has
returned, before the deadline. -/
def stateUpJoined : State :=
  (run configUp State.init (traceUpReported ++ [Event.mainWait])).getD State.init

/-- The state with no endpoint after `traceEmptyDirect`. -/
def stateEmptyExited : State :=
  (run (configEmpty 60) State.init traceEmptyDirect).getD State.init

/-- The state of `configDown` after the store of the watcher. -/
def stateDownStored : State :=
  (run configDown State.init (traceDown.take 10)).getD State.init

/-! ## Lemmas on discovery and on the timer duration -/

theorem wrapInt64_of_isInt64 (x : Int) (h : isInt64 x) : wrapInt64 x = x := by
  unfold isInt64 at h
  unfold wrapInt64
  norm_num at h ⊢
  omega

theorem foldl_loadServicesIter (environ : List GoString) (l : List GoString)
    (acc : List Service × List GoString) :
    (l.foldl (loadServicesIter environ) acc).1 = acc.1 ++ l.filterMap (specEntry environ) := by
  induction l generalizing acc with
  | nil => simp
  | cons line rest ih =>
    rw [List.foldl_cons, ih]
    unfold loadServicesIter specEntry
    by_cases hs : HasSuffix (splitKey line) addrSuffix = true
    · cases hp : Atoi (Getenv environ (List.take ((splitKey line).length - 9) (splitKey line) ++ portSuffix)) with
      | none => simp [hs, hp, List.filterMap_cons]
      | some port => simp [hs, hp, List.filterMap_cons]
    · simp [hs, List.filterMap_cons]

theorem loadServicesFromEnv_eq_filterMap (environ : List GoString) :
    loadServicesFromEnv environ = environ.filterMap (specEntry environ) := by
  unfold loadServicesFromEnv loadServicesFromEnvLog
  rw [foldl_loadServicesIter]
  simp

theorem Getenv_undefined (environ : List GoString) (key : GoString)
    (h : ∀ l ∈ environ, ¬ (l.contains '=' = true ∧ splitKey l = key)) : Getenv environ key = [] := by
  unfold Getenv
  split
  · rfl
  · have : environ.find? (fun line => line.contains '=' && splitKey line == key) = none := by
      rw [List.find?_eq_none]
      intro l hl
      have := h l hl
      simpa using this
    rw [this]

theorem Atoi_nil : Atoi [] = none := by decide

theorem HasSuffix_split (s suffix : GoString) (h : HasSuffix s suffix = true) :
    s = s.take (s.length - suffix.length) ++ suffix := by
  unfold HasSuffix at h
  simp only [Bool.and_eq_true, decide_eq_true_eq, beq_iff_eq] at h
  conv_lhs => rw [← List.take_append_drop (s.length - suffix.length) s]
  rw [h.2]

theorem Atoi_isInt64 (s : GoString) (v : Int) (h : Atoi s = some v) : isInt64 v := by
  unfold Atoi at h
  dsimp only at h
  generalize (if s.head? == some '-' ∨ s.head? == some '+' then s.drop 1 else s) = body at h
  generalize (s.head? == some '-') = neg at h
  by_cases hb : body.isEmpty = true
  · simp [hb] at h
  · cases hp : parseDigits body 0 with
    | none => simp [hb, hp] at h
    | some n =>
      simp only [hb, hp] at h
      simp only [Bool.false_eq_true, if_false, Option.ite_none_right_eq_some,
        Option.some.injEq] at h
      obtain ⟨hr, rfl⟩ := h
      unfold isInt64
      norm_num
      exact hr

theorem specEntry_eq_some (environ : List GoString) (line : GoString) (s : Service)
    (h : specEntry environ line = some s) :
    splitKey line = s.Name ++ addrSuffix ∧ s.Address = Getenv environ (splitKey line)
      ∧ Atoi (Getenv environ (s.Name ++ portSuffix)) = some s.Port := by
  unfold specEntry at h
  dsimp only at h
  by_cases hs : HasSuffix (splitKey line) addrSuffix = true
  · rw [if_pos hs, Option.map_eq_some'] at h
    obtain ⟨port, hport, rfl⟩ := h
    refine ⟨?_, rfl, hport⟩
    have hsplit := HasSuffix_split _ _ hs
    have hlen : addrSuffix.length = 9 := by decide
    rw [hlen] at hsplit
    exact hsplit
  · rw [if_neg hs] at h
    exact absurd h (by simp)

theorem specEntry_eq_some_iff (environ : List GoString) (line : GoString) (s : Service) :
    specEntry environ line = some s ↔
      HasSuffix (splitKey line) addrSuffix = true
        ∧ splitKey line = s.Name ++ addrSuffix
        ∧ s.Address = Getenv environ (splitKey line)
        ∧ Atoi (Getenv environ (s.Name ++ portSuffix)) = some s.Port := by
  constructor
  · intro h
    have hs : HasSuffix (splitKey line) addrSuffix = true := by
      by_contra hn
      unfold specEntry at h
      simp [hn] at h
    exact ⟨hs, specEntry_eq_some environ line s h⟩
  · rintro ⟨hs, hkey, haddr, hport⟩
    have hlen : addrSuffix.length = 9 := by decide
    have hname : (splitKey line).take ((splitKey line).length - 9) = s.Name := by
      rw [hkey, List.length_append, hlen, Nat.add_sub_cancel]
      exact List.take_left' rfl
    unfold specEntry
    simp only [hs, if_true, hname, hport, Option.map_some', ← haddr]

theorem length_filterMap_specEntry (environ : List GoString) (l : List GoString) :
    (l.filterMap (specEntry environ)).length
      = l.countP (fun line => HasSuffix (splitKey line) addrSuffix
          && (Atoi (Getenv environ
                ((splitKey line).take ((splitKey line).length - 9) ++ portSuffix))).isSome) := by
  induction l with
  | nil => rfl
  | cons line rest ih =>
    rw [List.filterMap_cons, List.countP_cons]
    by_cases hs : HasSuffix (splitKey line) addrSuffix = true
    · cases hp : Atoi (Getenv environ
          ((splitKey line).take ((splitKey line).length - 9) ++ portSuffix)) with
      | none => simp [specEntry, hs, hp, ih]
      | some port => simp [specEntry, hs, hp, ih]
    · simp [specEntry, hs, ih]

/-! ### The sequential Prober -/

theorem waitForTcpConnLoop_retry (service : Service) (world : Nat → Attempt) (k : Nat) :
    ∀ (n fuel : Nat) (e : GoString),
      (∀ j, j < k → (world (n + j)).err ≠ none ∧ (world (n + j)).cancelled ≠ 1) →
      ∃ e', waitForTcpConnLoop service world (fuel + k) (some e) n
        = waitForTcpConnLoop service world fuel (some e') (n + k) := by
  induction k with
  | zero => intro n fuel e _; exact ⟨e, rfl⟩
  | succ k ih =>
    intro n fuel e h
    have h0 := h 0 (Nat.succ_pos k)
    rw [Nat.add_zero] at h0
    obtain ⟨e1, he1⟩ := Option.ne_none_iff_exists'.mp h0.1
    have hstep : waitForTcpConnLoop service world (fuel + (k + 1)) (some e) n
        = waitForTcpConnLoop service world (fuel + k) (some e1) (n + 1) := by
      rw [← Nat.add_assoc]
      simp [waitForTcpConnLoop, cancelCheck, he1, h0.2]
    have hrest : ∀ j, j < k → (world (n + 1 + j)).err ≠ none ∧ (world (n + 1 + j)).cancelled ≠ 1 := by
      intro j hj
      have := h (j + 1) (Nat.succ_lt_succ hj)
      rwa [show n + (j + 1) = n + 1 + j by omega] at this
    obtain ⟨e', he'⟩ := ih (n + 1) fuel e1 hrest
    exact ⟨e', by rw [hstep, he', show n + 1 + k = n + (k + 1) by omega]⟩

theorem waitForTcpConnLoop_attempts (service : Service) (world : Nat → Attempt) :
    ∀ (fuel n : Nat) (err : Option GoString) (r : ProbeReport),
      waitForTcpConnLoop service world fuel err n = some r → n ≤ r.attempts := by
  intro fuel
  induction fuel with
  | zero => intro n err r h; simp [waitForTcpConnLoop] at h
  | succ fuel ih =>
    intro n err r h
    cases err with
    | none =>
      simp [waitForTcpConnLoop] at h
      subst h
      exact Nat.le_refl _
    | some e =>
      simp only [waitForTcpConnLoop] at h
      split at h
      · simp only [Option.some.injEq] at h
        subst h
        exact Nat.le_succ _
      · exact Nat.le_of_succ_le (ih _ _ _ h)

/-! ## Lemmas on the transition system -/

theorem pending_append_spawn (ps : List Prober) (service : Service) :
    pending (ps ++ [Prober.spawn service]) = pending ps + 1 := by
  simp [pending, List.countP_append, Prober.spawn]

theorem pending_set (ps : List Prober) :
    ∀ (i : Nat) (p q : Prober), ps[i]? = some p →
      pending (ps.set i q) + (if p.pc = ProberPc.finished then 0 else 1)
        = pending ps + (if q.pc = ProberPc.finished then 0 else 1) := by
  induction ps with
  | nil => intro i p q h; simp at h
  | cons a rest ih =>
    intro i p q h
    cases i with
    | zero =>
      simp only [List.getElem?_cons_zero, Option.some.injEq] at h
      subst h
      simp only [List.set_cons_zero, pending, List.countP_cons]
      by_cases ha : a.pc = ProberPc.finished <;> by_cases hq : q.pc = ProberPc.finished <;>
        simp [ha, hq]
    | succ i =>
      simp only [List.getElem?_cons_succ] at h
      have := ih i p q h
      simp only [List.set_cons_succ, pending, List.countP_cons] at this ⊢
      omega

theorem pending_eq_zero (ps : List Prober) (h : pending ps = 0) (i : Nat) (p : Prober)
    (hp : ps[i]? = some p) : p.pc = ProberPc.finished := by
  unfold pending at h
  rw [List.countP_eq_zero] at h
  have hmem : p ∈ ps := List.getElem?_mem hp
  have := h p hmem
  simpa using this

theorem onProber_eq_some {s t : State} {i : Nat} {f : Prober → Option Prober}
    (h : s.onProber i f = some t) :
    ∃ p q, s.probers[i]? = some p ∧ f p = some q ∧ t = { s with probers := s.probers.set i q } := by
  unfold State.onProber at h
  cases hp : s.probers[i]? with
  | none => simp [hp] at h
  | some p =>
    cases hq : f p with
    | none => simp [hp, hq] at h
    | some q =>
      simp only [hp, hq, Option.some.injEq] at h
      exact ⟨p, q, rfl, hq, h.symm⟩

theorem stepProberStart_inv {cfg : Config} {c i : Nat} {p q : Prober}
    (h : ProberInv cfg c i p) (hq : stepProberStart p = some q) :
    ProberInv cfg c i q ∧ p.pc ≠ ProberPc.finished ∧ q.pc ≠ ProberPc.finished
      ∧ q.cancelled = p.cancelled := by
  unfold stepProberStart at hq
  split at hq
  · rename_i hpc
    simp only [Option.some.injEq] at hq
    subst hq
    obtain ⟨h1, h2, h3, h4, h5, h6, h7, h8⟩ := h
    have hf := h2 hpc
    refine ⟨⟨?_, ?_, ?_, ?_, ?_, ?_, ?_, ?_⟩, ?_, ?_, ?_⟩ <;> simp_all
  · simp at hq

theorem stepWatcherRecv_inv {cfg : Config} {c i : Nat} {p q : Prober} {b : Bool}
    (h : ProberInv cfg c i p) (hb : b = true → 0 < c) (hq : stepWatcherRecv b p = some q) :
    ProberInv cfg c i q ∧ q.pc = p.pc ∧ q.cancelled = p.cancelled := by
  unfold stepWatcherRecv at hq
  split at hq
  · rename_i hw
    split at hq
    · rename_i hset
      simp only [Option.some.injEq] at hq
      subst hq
      obtain ⟨h1, h2, h3, h4, h5, h6, h7, h8⟩ := h
      have hc := hb hset
      refine ⟨⟨?_, ?_, ?_, ?_, ?_, ?_, ?_, ?_⟩, ?_, ?_⟩ <;> simp_all
    · simp at hq
  · simp at hq

theorem stepWatcherStore_inv {cfg : Config} {c i : Nat} {p q : Prober}
    (h : ProberInv cfg c i p) (hq : stepWatcherStore p = some q) :
    ProberInv cfg c i q ∧ q.pc = p.pc ∧ p.cancelled = 0 ∧ q.cancelled = 1 ∧ 0 < c := by
  unfold stepWatcherStore at hq
  split at hq
  · rename_i hw
    simp only [Option.some.injEq] at hq
    subst hq
    obtain ⟨h1, h2, h3, h4, h5, h6, h7, h8⟩ := h
    have hc := h4 (Or.inl hw)
    have h0 : p.cancelled = 0 := by
      rcases h1 with h0 | h1
      · exact h0
      · have := h3 h1; simp_all
    refine ⟨⟨?_, ?_, ?_, ?_, ?_, ?_, ?_, ?_⟩, ?_, ?_, ?_, ?_⟩ <;> simp_all
  · simp at hq

theorem stepProberDial_inv {cfg : Config} {c i : Nat} {p q : Prober}
    (h : ProberInv cfg c i p) (hq : stepProberDial (cfg.dial i p.attempts) p = some q) :
    ProberInv cfg c i q ∧ p.pc ≠ ProberPc.finished ∧ q.pc ≠ ProberPc.finished
      ∧ q.cancelled = p.cancelled := by
  unfold stepProberDial at hq
  split at hq
  · rename_i e hpc he
    simp only [Option.some.injEq] at hq
    subst hq
    obtain ⟨h1, h2, h3, h4, h5, h6, h7, h8⟩ := h
    refine ⟨⟨?_, ?_, ?_, ?_, ?_, ?_, ?_, ?_⟩, ?_, ?_, ?_⟩ <;> simp_all [Config.neverUp]
  · simp at hq

theorem stepProberCheck_inv {cfg : Config} {c i : Nat} {p q : Prober}
    (h : ProberInv cfg c i p) (hq : stepProberCheck p = some q) :
    ProberInv cfg c i q ∧ p.pc ≠ ProberPc.finished ∧ q.pc ≠ ProberPc.finished
      ∧ q.cancelled = p.cancelled := by
  unfold stepProberCheck at hq
  split at hq
  · rename_i hpc
    obtain ⟨h1, h2, h3, h4, h5, h6, h7, h8⟩ := h
    split at hq
    · rename_i hchk
      simp only [Option.some.injEq] at hq
      subst hq
      simp only [cancelCheck, Bool.and_eq_true, beq_iff_eq] at hchk
      refine ⟨⟨?_, ?_, ?_, ?_, ?_, ?_, ?_, ?_⟩, ?_, ?_, ?_⟩ <;> simp_all
    · simp only [Option.some.injEq] at hq
      subst hq
      refine ⟨⟨?_, ?_, ?_, ?_, ?_, ?_, ?_, ?_⟩, ?_, ?_, ?_⟩ <;> simp_all
  · simp at hq

theorem stepProberExit_inv {cfg : Config} {c i : Nat} {p q : Prober}
    (h : ProberInv cfg c i p) (hq : stepProberExit p = some q) :
    ProberInv cfg c i q ∧ p.pc ≠ ProberPc.finished ∧ q.pc ≠ ProberPc.finished
      ∧ q.cancelled = p.cancelled := by
  unfold stepProberExit at hq
  split at hq
  · rename_i hpc he
    simp only [Option.some.injEq] at hq
    subst hq
    obtain ⟨h1, h2, h3, h4, h5, h6, h7, h8⟩ := h
    have hno : ¬ cfg.neverUp i := fun hn => by
      have := h7 hn he
      simp_all
    refine ⟨⟨?_, ?_, ?_, ?_, ?_, ?_, ?_, ?_⟩, ?_, ?_, ?_⟩ <;> simp_all
  · simp at hq

theorem stepProberDone_inv {cfg : Config} {c i : Nat} {p q : Prober}
    (h : ProberInv cfg c i p) (hq : stepProberDone p = some q) :
    ProberInv cfg c i q ∧ p.pc ≠ ProberPc.finished ∧ q.pc = ProberPc.finished
      ∧ q.cancelled = p.cancelled := by
  unfold stepProberDone at hq
  split at hq
  · rename_i hpc
    simp only [Option.some.injEq] at hq
    subst hq
    obtain ⟨h1, h2, h3, h4, h5, h6, h7, h8⟩ := h
    refine ⟨⟨?_, ?_, ?_, ?_, ?_, ?_, ?_, ?_⟩, ?_, ?_, ?_⟩ <;> simp_all
  · simp at hq

theorem ProberInv.mono {cfg : Config} {c d i : Nat} {p : Prober}
    (h : ProberInv cfg c i p) (hcd : c ≤ d) : ProberInv cfg d i p :=
  { h with woken := fun hw => Nat.lt_of_lt_of_le (h.woken hw) hcd }

theorem ProberInv.spawn (cfg : Config) (c i : Nat) (service : Service) :
    ProberInv cfg c i (Prober.spawn service) := by
  refine ⟨?_, ?_, ?_, ?_, ?_, ?_, ?_, ?_⟩ <;> simp [Prober.spawn]

theorem Inv.withLog {cfg : Config} {s : State} (h : Inv cfg s) (l : List GoString) :
    Inv cfg { s with log := l } :=
  ⟨h.spawned, h.allSpawned, h.armed, h.joined, h.resolved, h.started, h.closed, h.counter,
    h.probers, h.clock, h.due, h.fired⟩

theorem Inv.setProber {cfg : Config} {s : State} {i : Nat} {p q : Prober} (h : Inv cfg s)
    (hp : s.probers[i]? = some p) (hq : ProberInv cfg s.closes i q)
    (hpc : p.pc ≠ ProberPc.finished ∧ q.pc ≠ ProberPc.finished ∨ q.pc = p.pc) :
    Inv cfg { s with probers := s.probers.set i q } := by
  have hcount : pending (s.probers.set i q) = pending s.probers := by
    have := pending_set s.probers i p q hp
    rcases hpc with ⟨h1, h2⟩ | h1
    · simpa [h1, h2] using this
    · rw [h1] at this
      omega
  refine ⟨?_, ?_, h.armed, h.joined, h.resolved, h.started, h.closed, ?_, ?_, h.clock, h.due,
    h.fired⟩
  · intro j hj
    simpa using h.spawned j hj
  · intro hj
    simpa using h.allSpawned hj
  · show s.wg = (pending (s.probers.set i q) : Int)
    rw [hcount]
    exact h.counter
  · intro j r hr
    show ProberInv cfg s.closes j r
    change (s.probers.set i q)[j]? = some r at hr
    by_cases hij : i = j
    · subst hij
      rw [List.getElem?_set] at hr
      simp only [if_true] at hr
      split at hr
      · simp only [Option.some.injEq] at hr
        subst hr
        exact hq
      · simp at hr
    · rw [List.getElem?_set_ne hij] at hr
      exact h.probers j r hr

theorem Inv.doneProber {cfg : Config} {s : State} {i : Nat} {p q : Prober} (h : Inv cfg s)
    (hp : s.probers[i]? = some p) (hq : ProberInv cfg s.closes i q)
    (hpc : p.pc ≠ ProberPc.finished) (hqc : q.pc = ProberPc.finished) :
    Inv cfg { s with probers := s.probers.set i q, wg := s.wg - 1 } := by
  have hcount : pending (s.probers.set i q) + 1 = pending s.probers := by
    have := pending_set s.probers i p q hp
    simpa [hpc, hqc] using this
  have hwg : s.wg ≠ 0 := by
    rw [h.counter]
    omega
  refine ⟨?_, ?_, h.armed, ?_, ?_, h.started, h.closed, ?_, ?_, h.clock, h.due, h.fired⟩
  · intro j hj
    simpa using h.spawned j hj
  · intro hj
    simpa using h.allSpawned hj
  · intro hm
    exact absurd (h.joined hm) hwg
  · intro r hr
    exact absurd (h.joined (Or.inr ⟨r, hr⟩)) hwg
  · show s.wg - 1 = (pending (s.probers.set i q) : Int)
    rw [h.counter]
    omega
  · intro j r hr
    show ProberInv cfg s.closes j r
    change (s.probers.set i q)[j]? = some r at hr
    by_cases hij : i = j
    · subst hij
      rw [List.getElem?_set] at hr
      simp only [if_true] at hr
      split at hr
      · simp only [Option.some.injEq] at hr
        subst hr
        exact hq
      · simp at hr
    · rw [List.getElem?_set_ne hij] at hr
      exact h.probers j r hr

theorem Inv.init (cfg : Config) : Inv cfg State.init := by
  refine ⟨?_, ?_, ?_, ?_, ?_, ?_, ?_, ?_, ?_, ?_, ?_, ?_⟩ <;>
    simp [State.init, pending]

theorem stepMainSpawn_inv {cfg : Config} {s t : State} (h : Inv cfg s)
    (ht : stepMainSpawn cfg s = some t) : Inv cfg t := by
  unfold stepMainSpawn at ht
  split at ht
  · rename_i i hm
    split at ht
    · rename_i service hsvc
      simp only [Option.some.injEq] at ht
      subst ht
      obtain ⟨hlen, hle, htimer⟩ := h.spawned i hm
      have hlt : i < cfg.services.length := by
        rcases Nat.lt_or_ge i cfg.services.length with hlt | hge
        · exact hlt
        · rw [List.getElem?_eq_none hge] at hsvc
          exact absurd hsvc (by simp)
      refine ⟨?_, ?_, ?_, ?_, ?_, h.started, h.closed, ?_, ?_, h.clock, h.due, h.fired⟩
      · intro j hj
        simp only [MainPc.spawning.injEq] at hj
        subst hj
        exact ⟨by simp [hlen], hlt, htimer⟩
      · intro hj
        exact absurd rfl (hj (i + 1))
      · intro hj
        simp at hj
      · intro hj
        simp at hj
      · intro r hr
        simp at hr
      · show s.wg + 1 = (pending (s.probers ++ [Prober.spawn service]) : Int)
        rw [pending_append_spawn, h.counter]
        push_cast
        rfl
      · intro j r hr
        show ProberInv cfg s.closes j r
        change (s.probers ++ [Prober.spawn service])[j]? = some r at hr
        rcases Nat.lt_or_ge j s.probers.length with hj | hj
        · rw [List.getElem?_append_left hj] at hr
          exact h.probers j r hr
        · rw [List.getElem?_append_right hj] at hr
          cases hk : j - s.probers.length with
          | zero =>
            rw [hk] at hr
            simp only [List.getElem?_cons_zero, Option.some.injEq] at hr
            subst hr
            exact ProberInv.spawn cfg s.closes j service
          | succ k =>
            rw [hk] at hr
            simp at hr
    · simp at ht
  · simp at ht

theorem stepMainArm_inv {cfg : Config} {s t : State} (h : Inv cfg s)
    (ht : stepMainArm cfg s = some t) : Inv cfg t := by
  unfold stepMainArm at ht
  split at ht
  · rename_i i hm
    split at ht
    · rename_i hge
      simp only [Option.some.injEq] at ht
      subst ht
      obtain ⟨hlen, hle, htimer⟩ := h.spawned i hm
      have hidle : s.callback = CallbackPc.idle := h.started.mpr (by rw [htimer]; simp)
      refine ⟨?_, ?_, ?_, ?_, ?_, ?_, h.closed, h.counter, h.probers, h.clock, ?_, ?_⟩
      · intro j hj
        simp at hj
      · intro _
        show s.probers.length = cfg.services.length
        omega
      · intro _
        exact Or.inl ⟨_, rfl⟩
      · intro hj
        simp at hj
      · intro r hr
        simp at hr
      · show s.callback = CallbackPc.idle ↔ _
        simp [hidle]
      · intro d hd
        simp only [TimerState.armed.injEq] at hd
        subst hd
        have := h.clock
        omega
      · intro hx
        simp at hx
    · simp at ht
  · simp at ht

theorem stepMainWait_inv {cfg : Config} {s t : State} (h : Inv cfg s)
    (ht : stepMainWait s = some t) : Inv cfg t := by
  unfold stepMainWait at ht
  split at ht
  · rename_i hm
    split at ht
    · rename_i hwg
      simp only [Option.some.injEq] at ht
      subst ht
      refine ⟨?_, ?_, ?_, ?_, ?_, h.started, h.closed, h.counter, h.probers, h.clock, h.due,
        h.fired⟩
      · intro j hj
        simp at hj
      · intro _
        exact h.allSpawned (by intro j; rw [hm]; simp)
      · intro _
        exact h.armed (Or.inl hm)
      · intro _
        exact hwg
      · intro r hr
        simp at hr
    · simp at ht
  · simp at ht

theorem stepMainStop_inv {cfg : Config} {s t : State} (h : Inv cfg s)
    (ht : stepMainStop cfg s = some t) : Inv cfg t := by
  unfold stepMainStop at ht
  split at ht
  · rename_i hm
    simp only [Option.some.injEq] at ht
    subst ht
    have hwg := h.joined (Or.inl hm)
    have hstarted := h.started
    have hfired := h.fired
    rcases h.armed (Or.inr hm) with ⟨due, hdue⟩ | hexp
    · refine ⟨?_, ?_, ?_, ?_, ?_, ?_, h.closed, h.counter, h.probers, h.clock, ?_, ?_⟩
      · intro j hj
        simp at hj
      · intro _
        exact h.allSpawned (by intro j; rw [hm]; simp)
      · intro hj
        simp at hj
      · intro _
        exact hwg
      · intro r hr
        simp only [MainPc.exited.injEq] at hr
        subst hr
        left
        simp [hdue, TimerState.Stop]
      · simp only [hdue, TimerState.Stop]
        rw [hdue] at hstarted
        simpa using hstarted
      · intro d hd
        simp [hdue, TimerState.Stop] at hd
      · intro hx
        simp [hdue, TimerState.Stop] at hx
    · refine ⟨?_, ?_, ?_, ?_, ?_, ?_, h.closed, h.counter, h.probers, h.clock, ?_, ?_⟩
      · intro j hj
        simp at hj
      · intro _
        exact h.allSpawned (by intro j; rw [hm]; simp)
      · intro hj
        simp at hj
      · intro _
        exact hwg
      · intro r hr
        simp only [MainPc.exited.injEq] at hr
        subst hr
        right
        simp [hexp, TimerState.Stop]
      · simp only [hexp, TimerState.Stop]
        rw [hexp] at hstarted
        simpa using hstarted
      · intro d hd
        simp [hexp, TimerState.Stop] at hd
      · intro _
        exact hfired hexp
  · simp at ht

theorem stepTimerExpire_inv {cfg : Config} {s t : State} (h : Inv cfg s)
    (ht : stepTimerExpire s = some t) : Inv cfg t := by
  unfold stepTimerExpire at ht
  split at ht
  · rename_i due hdue
    split at ht
    · rename_i hle
      simp only [Option.some.injEq] at ht
      subst ht
      have hidle : s.callback = CallbackPc.idle := h.started.mpr (by rw [hdue]; simp)
      have hclosed := h.closed
      rw [hidle] at hclosed
      have hd := h.due due hdue
      refine ⟨?_, h.allSpawned, ?_, h.joined, ?_, ?_, ?_, h.counter, h.probers, h.clock, ?_, ?_⟩
      · intro j hj
        have := (h.spawned j hj).2.2
        rw [hdue] at this
        simp at this
      · intro _
        exact Or.inr rfl
      · intro r hr
        have := h.resolved r hr
        rw [hdue] at this
        simp at this
      · simp
      · show s.closes = _
        simpa using hclosed
      · intro d hx
        simp at hx
      · intro _
        show timerDuration cfg.timeout ≤ s.now
        omega
    · simp at ht
  · simp at ht

theorem stepTimerClose_inv {cfg : Config} {s t : State} (h : Inv cfg s)
    (ht : stepTimerClose s = some t) : Inv cfg t := by
  unfold stepTimerClose at ht
  split at ht
  · rename_i hcb
    simp only [Option.some.injEq] at ht
    subst ht
    have hclosed := h.closed
    rw [hcb] at hclosed
    have hstarted := h.started
    rw [hcb] at hstarted
    refine ⟨h.spawned, h.allSpawned, h.armed, h.joined, h.resolved, ?_, ?_, h.counter, ?_,
      h.clock, h.due, h.fired⟩
    · simpa using hstarted
    · show s.closes + 1 = _
      simp at hclosed
      simp [hclosed]
    · intro j r hr
      exact (h.probers j r hr).mono (Nat.le_succ _)
  · simp at ht

theorem tick_inv {cfg : Config} {s : State} (h : Inv cfg s) (d : Nat) :
    Inv cfg { s with now := s.now + d } := by
  refine ⟨h.spawned, h.allSpawned, h.armed, h.joined, h.resolved, h.started, h.closed,
    h.counter, h.probers, ?_, h.due, ?_⟩
  · have := h.clock
    show 0 ≤ s.now + d
    omega
  · intro hx
    have := h.fired hx
    show timerDuration cfg.timeout ≤ s.now + d
    omega

theorem Inv.step {cfg : Config} {s t : State} {e : Event} (h : Inv cfg s)
    (ht : step cfg s e = some t) : Inv cfg t := by
  unfold WaitForServices.step at ht
  split at ht
  · simp at ht
  · cases e with
    | mainSpawn => exact stepMainSpawn_inv h ht
    | mainArm => exact stepMainArm_inv h ht
    | mainWait => exact stepMainWait_inv h ht
    | mainStop => exact stepMainStop_inv h ht
    | timerExpire => exact stepTimerExpire_inv h ht
    | timerClose => exact stepTimerClose_inv h ht
    | tick d =>
      simp only [stepRunning, Option.some.injEq] at ht
      subst ht
      exact tick_inv h d
    | proberStart i =>
      obtain ⟨p, q, hp, hq, rfl⟩ := onProber_eq_some ht
      have hi := stepProberStart_inv (h.probers i p hp) hq
      exact h.setProber hp hi.1 (Or.inl ⟨hi.2.1, hi.2.2.1⟩)
    | watcherRecv i =>
      obtain ⟨p, q, hp, hq, rfl⟩ := onProber_eq_some ht
      have hb : s.cancelSet = true → 0 < s.closes := by
        intro hb
        simpa [State.cancelSet] using hb
      have hi := stepWatcherRecv_inv (h.probers i p hp) hb hq
      exact h.setProber hp hi.1 (Or.inr hi.2.1)
    | watcherStore i =>
      obtain ⟨p, q, hp, hq, rfl⟩ := onProber_eq_some ht
      have hi := stepWatcherStore_inv (h.probers i p hp) hq
      exact h.setProber hp hi.1 (Or.inr hi.2.1)
    | proberDial i =>
      obtain ⟨p, q, hp, hq, rfl⟩ := onProber_eq_some ht
      have hi := stepProberDial_inv (h.probers i p hp) hq
      exact h.setProber hp hi.1 (Or.inl ⟨hi.2.1, hi.2.2.1⟩)
    | proberCheck i =>
      simp only [stepRunning, Option.map_eq_some'] at ht
      obtain ⟨a, ha, rfl⟩ := ht
      obtain ⟨p, q, hp, hq, rfl⟩ := onProber_eq_some ha
      have hi := stepProberCheck_inv (h.probers i p hp) hq
      have hinv := h.setProber hp hi.1 (Or.inl ⟨hi.2.1, hi.2.2.1⟩)
      split
      · split
        · exact hinv.withLog _
        · exact hinv
      · exact hinv
    | proberExit i =>
      simp only [stepRunning, Option.map_eq_some'] at ht
      obtain ⟨a, ha, rfl⟩ := ht
      obtain ⟨p, q, hp, hq, rfl⟩ := onProber_eq_some ha
      have hi := stepProberExit_inv (h.probers i p hp) hq
      have hinv := h.setProber hp hi.1 (Or.inl ⟨hi.2.1, hi.2.2.1⟩)
      split
      · exact hinv.withLog _
      · exact hinv
    | proberDone i =>
      simp only [stepRunning, Option.map_eq_some'] at ht
      obtain ⟨a, ha, rfl⟩ := ht
      obtain ⟨p, q, hp, hq, rfl⟩ := onProber_eq_some ha
      have hi := stepProberDone_inv (h.probers i p hp) hq
      exact h.doneProber hp hi.1 hi.2.1 hi.2.2.1

theorem Inv.run {cfg : Config} : ∀ (es : List Event) (s t : State),
    Inv cfg s → run cfg s es = some t → Inv cfg t := by
  intro es
  induction es with
  | nil =>
    intro s t h ht
    simp only [WaitForServices.run, Option.some.injEq] at ht
    subst ht
    exact h
  | cons e es ih =>
    intro s t h ht
    simp only [WaitForServices.run] at ht
    split at ht
    · simp at ht
    · rename_i u hu
      exact ih u t (h.step hu) ht

theorem reachable_inv {cfg : Config} {es : List Event} {s : State}
    (h : run cfg State.init es = some s) : Inv cfg s :=
  Inv.run es State.init s (Inv.init cfg) h

theorem flag_set {s : State} {i : Nat} {p q : Prober} (hp : s.probers[i]? = some p)
    (hflag : q.cancelled = p.cancelled
      ∨ (p.cancelled = 0 ∧ q.cancelled = 1 ∧ s.cancelSet = true)) :
    ∀ (j : Nat) (a b : Prober), s.probers[j]? = some a → (s.probers.set i q)[j]? = some b →
      b.cancelled = a.cancelled ∨ (a.cancelled = 0 ∧ b.cancelled = 1 ∧ s.cancelSet = true) := by
  intro j a b ha hb
  by_cases hij : i = j
  · subst hij
    rw [hp] at ha
    simp only [Option.some.injEq] at ha
    subst ha
    rw [List.getElem?_set] at hb
    simp only [if_true] at hb
    split at hb
    · simp only [Option.some.injEq] at hb
      subst hb
      exact hflag
    · simp at hb
  · rw [List.getElem?_set_ne hij, ha] at hb
    simp only [Option.some.injEq] at hb
    subst hb
    exact Or.inl rfl

theorem flag_same {ps qs : List Prober} {c : Bool} (h : ∀ (j : Nat) (a : Prober), ps[j]? = some a → qs[j]? = some a) :
    ∀ (j : Nat) (a b : Prober), ps[j]? = some a → qs[j]? = some b →
      b.cancelled = a.cancelled ∨ (a.cancelled = 0 ∧ b.cancelled = 1 ∧ c = true) := by
  intro j a b ha hb
  rw [h j a ha] at hb
  simp only [Option.some.injEq] at hb
  subst hb
  exact Or.inl rfl

theorem step_cancel {cfg : Config} {s t : State} {e : Event} (h : Inv cfg s)
    (ht : step cfg s e = some t) :
    s.closes ≤ t.closes ∧ (t.closes ≠ s.closes → e = Event.timerClose)
      ∧ ∀ (j : Nat) (a b : Prober), s.probers[j]? = some a → t.probers[j]? = some b →
          b.cancelled = a.cancelled
            ∨ (a.cancelled = 0 ∧ b.cancelled = 1 ∧ s.cancelSet = true) := by
  unfold WaitForServices.step at ht
  split at ht
  · simp at ht
  · cases e with
    | mainSpawn =>
      simp only [stepRunning, stepMainSpawn] at ht
      split at ht
      · split at ht
        · simp only [Option.some.injEq] at ht
          subst ht
          refine ⟨Nat.le_refl _, fun hne => absurd rfl hne, flag_same ?_⟩
          intro j a ha
          have hj : j < s.probers.length := by
            rcases Nat.lt_or_ge j s.probers.length with hj | hj
            · exact hj
            · rw [List.getElem?_eq_none hj] at ha
              exact absurd ha (by simp)
          show (s.probers ++ _)[j]? = some a
          rw [List.getElem?_append_left hj]
          exact ha
        · simp at ht
      · simp at ht
    | mainArm =>
      simp only [stepRunning, stepMainArm] at ht
      split at ht
      · split at ht
        · simp only [Option.some.injEq] at ht
          subst ht
          exact ⟨Nat.le_refl _, fun hne => absurd rfl hne, flag_same (fun j a ha => ha)⟩
        · simp at ht
      · simp at ht
    | mainWait =>
      simp only [stepRunning, stepMainWait] at ht
      split at ht
      · split at ht
        · simp only [Option.some.injEq] at ht
          subst ht
          exact ⟨Nat.le_refl _, fun hne => absurd rfl hne, flag_same (fun j a ha => ha)⟩
        · simp at ht
      · simp at ht
    | mainStop =>
      simp only [stepRunning, stepMainStop] at ht
      split at ht
      · simp only [Option.some.injEq] at ht
        subst ht
        exact ⟨Nat.le_refl _, fun hne => absurd rfl hne, flag_same (fun j a ha => ha)⟩
      · simp at ht
    | timerExpire =>
      simp only [stepRunning, stepTimerExpire] at ht
      split at ht
      · split at ht
        · simp only [Option.some.injEq] at ht
          subst ht
          exact ⟨Nat.le_refl _, fun hne => absurd rfl hne, flag_same (fun j a ha => ha)⟩
        · simp at ht
      · simp at ht
    | timerClose =>
      simp only [stepRunning, stepTimerClose] at ht
      split at ht
      · simp only [Option.some.injEq] at ht
        subst ht
        exact ⟨Nat.le_succ _, fun _ => rfl, flag_same (fun j a ha => ha)⟩
      · simp at ht
    | tick d =>
      simp only [stepRunning, Option.some.injEq] at ht
      subst ht
      exact ⟨Nat.le_refl _, fun hne => absurd rfl hne, flag_same (fun j a ha => ha)⟩
    | proberStart i =>
      obtain ⟨p, q, hp, hq, rfl⟩ := onProber_eq_some ht
      have hi := stepProberStart_inv (h.probers i p hp) hq
      exact ⟨Nat.le_refl _, fun hne => absurd rfl hne, flag_set hp (Or.inl hi.2.2.2)⟩
    | watcherRecv i =>
      obtain ⟨p, q, hp, hq, rfl⟩ := onProber_eq_some ht
      have hb : s.cancelSet = true → 0 < s.closes := by
        intro hb
        simpa [State.cancelSet] using hb
      have hi := stepWatcherRecv_inv (h.probers i p hp) hb hq
      exact ⟨Nat.le_refl _, fun hne => absurd rfl hne, flag_set hp (Or.inl hi.2.2)⟩
    | watcherStore i =>
      obtain ⟨p, q, hp, hq, rfl⟩ := onProber_eq_some ht
      have hi := stepWatcherStore_inv (h.probers i p hp) hq
      have hset : s.cancelSet = true := by
        simpa [State.cancelSet] using hi.2.2.2.2
      exact ⟨Nat.le_refl _, fun hne => absurd rfl hne,
        flag_set hp (Or.inr ⟨hi.2.2.1, hi.2.2.2.1, hset⟩)⟩
    | proberDial i =>
      obtain ⟨p, q, hp, hq, rfl⟩ := onProber_eq_some ht
      have hi := stepProberDial_inv (h.probers i p hp) hq
      exact ⟨Nat.le_refl _, fun hne => absurd rfl hne, flag_set hp (Or.inl hi.2.2.2)⟩
    | proberCheck i =>
      simp only [stepRunning, Option.map_eq_some'] at ht
      obtain ⟨a, ha, rfl⟩ := ht
      obtain ⟨p, q, hp, hq, rfl⟩ := onProber_eq_some ha
      have hi := stepProberCheck_inv (h.probers i p hp) hq
      have hres := flag_set hp (Or.inl hi.2.2.2 :
        q.cancelled = p.cancelled ∨ (p.cancelled = 0 ∧ q.cancelled = 1 ∧ s.cancelSet = true))
      split
      · split
        · exact ⟨Nat.le_refl _, fun hne => absurd rfl hne, hres⟩
        · exact ⟨Nat.le_refl _, fun hne => absurd rfl hne, hres⟩
      · exact ⟨Nat.le_refl _, fun hne => absurd rfl hne, hres⟩
    | proberExit i =>
      simp only [stepRunning, Option.map_eq_some'] at ht
      obtain ⟨a, ha, rfl⟩ := ht
      obtain ⟨p, q, hp, hq, rfl⟩ := onProber_eq_some ha
      have hi := stepProberExit_inv (h.probers i p hp) hq
      have hres := flag_set hp (Or.inl hi.2.2.2 :
        q.cancelled = p.cancelled ∨ (p.cancelled = 0 ∧ q.cancelled = 1 ∧ s.cancelSet = true))
      split
      · exact ⟨Nat.le_refl _, fun hne => absurd rfl hne, hres⟩
      · exact ⟨Nat.le_refl _, fun hne => absurd rfl hne, hres⟩
    | proberDone i =>
      simp only [stepRunning, Option.map_eq_some'] at ht
      obtain ⟨a, ha, rfl⟩ := ht
      obtain ⟨p, q, hp, hq, rfl⟩ := onProber_eq_some ha
      have hi := stepProberDone_inv (h.probers i p hp) hq
      exact ⟨Nat.le_refl _, fun hne => absurd rfl hne, flag_set hp (Or.inl hi.2.2.2)⟩

theorem run_closes_mono {cfg : Config} : ∀ (es : List Event) (s t : State),
    Inv cfg s → run cfg s es = some t → s.closes ≤ t.closes := by
  intro es
  induction es with
  | nil =>
    intro s t _ ht
    simp only [WaitForServices.run, Option.some.injEq] at ht
    subst ht
    exact Nat.le_refl _
  | cons e es ih =>
    intro s t h ht
    simp only [WaitForServices.run] at ht
    split at ht
    · simp at ht
    · rename_i u hu
      exact Nat.le_trans (step_cancel h hu).1 (ih u t (h.step hu) ht)

theorem Inv.closes_le_one {cfg : Config} {s : State} (h : Inv cfg s) : s.closes ≤ 1 := by
  rw [h.closed]
  split <;> simp

theorem Inv.timer_of_set {cfg : Config} {s : State} (h : Inv cfg s) (hc : 0 < s.closes) :
    s.timer = TimerState.expired := by
  have hclosed := h.closed
  by_cases hcb : s.callback = CallbackPc.finished
  · by_contra hne
    have := h.started.mpr hne
    rw [this] at hcb
    simp at hcb
  · rw [if_neg hcb] at hclosed
    omega

theorem Inv.all_finished {cfg : Config} {s : State} (h : Inv cfg s)
    (hm : s.main = MainPc.stopping ∨ ∃ r, s.main = MainPc.exited r) (i : Nat) (p : Prober)
    (hp : s.probers[i]? = some p) : p.pc = ProberPc.finished := by
  have hwg := h.joined hm
  rw [h.counter] at hwg
  exact pending_eq_zero s.probers (by exact_mod_cast hwg) i p hp

theorem Inv.timedOut_of_neverUp {cfg : Config} {s : State} (h : Inv cfg s)
    (hm : s.main = MainPc.stopping ∨ ∃ r, s.main = MainPc.exited r) (i : Nat)
    (hi : i < cfg.services.length) (hnever : cfg.neverUp i) :
    s.reported i Outcome.timedOut = true ∧ s.timer = TimerState.expired := by
  have hlen : s.probers.length = cfg.services.length := by
    apply h.allSpawned
    intro j hj
    rcases hm with hm | ⟨r, hm⟩ <;> rw [hm] at hj <;> simp at hj
  have hlt : i < s.probers.length := by omega
  have hp : s.probers[i]? = some s.probers[i] := List.getElem?_eq_getElem hlt
  have hfin := h.all_finished hm i _ hp
  have hpi := h.probers i _ hp
  have hrep := hpi.reported (Or.inr hfin)
  have hnot := hpi.unreported hnever
  have hto : (s.probers[i]).report = some Outcome.timedOut := by
    cases hr : (s.probers[i]).report with
    | none => exact absurd hr hrep
    | some o =>
      cases o with
      | up => exact absurd hr hnot
      | timedOut => rfl
  have hc := hpi.woken (Or.inr (hpi.stored (hpi.timedOut hto)))
  refine ⟨?_, h.timer_of_set hc⟩
  simp [State.reported, hp, hto]

theorem step_mainStop {cfg : Config} {s : State} (hmain : s.main = MainPc.stopping) :
    step cfg s Event.mainStop
      = some { s with main := MainPc.exited (resolve cfg.timeout s.timer.Stop.1),
                      timer := s.timer.Stop.2,
                      log := s.log ++ [(resolve cfg.timeout s.timer.Stop.1).message] } := by
  simp [step, stepRunning, stepMainStop, hmain]

/-- One pass of the Prober goroutine through the loop body, a dial followed by
the check, does what one unfolding of `waitForTcpConnLoop` does: it ends with
"timed out" when `cancelCheck` holds of the flag and the new error, and is
back at the loop condition with the new error otherwise. -/
theorem prober_iteration (p : Prober) (e : GoString) (r : Option GoString)
    (hpc : p.pc = ProberPc.loopHead) (herr : p.err = some e) :
    (stepProberDial r p).bind stepProberCheck
      = some (if cancelCheck p.cancelled r then
                { p with err := r, attempts := p.attempts + 1, pc := ProberPc.returned,
                         report := some Outcome.timedOut }
              else { p with err := r, attempts := p.attempts + 1, pc := ProberPc.loopHead }) := by
  unfold stepProberDial
  simp only [hpc, herr, Option.some_bind]
  unfold stepProberCheck
  by_cases hc : cancelCheck p.cancelled r = true <;> simp [hc]

/-! ## The claims -/

/-- Claim C1. Success takes priority over cancellation: when attempt `k` is the
first that connects and no earlier (failed) attempt read the flag as 1, then
with enough fuel `waitForTcpConn` reports "is up" after exactly `k + 1`
attempts, whatever the flag reads at attempt `k` (nothing is assumed of it).
Every report comes after at least one attempt, and a first attempt that
connects gives the report "is up" after one attempt for every flag value. -/
theorem waitForTcpConn_success_first (service : Service) (world : Nat → Attempt) (k : Nat)
    (hup : (world k).err = none)
    (hprev : ∀ j, j < k → (world j).err ≠ none ∧ (world j).cancelled ≠ 1) :
    (∀ fuel, k + 2 ≤ fuel →
        waitForTcpConn service world fuel
          = some { outcome := Outcome.up, attempts := k + 1, log := upMessage service })
      ∧ (∀ (w : Nat → Attempt) (fuel : Nat) (r : ProbeReport),
          waitForTcpConn service w fuel = some r → 1 ≤ r.attempts)
      ∧ (∀ (w : Nat → Attempt) (fuel : Nat), (w 0).err = none → 2 ≤ fuel →
          waitForTcpConn service w fuel
            = some { outcome := Outcome.up, attempts := 1, log := upMessage service }) := by
  have key : ∀ (w : Nat → Attempt) (m : Nat), (w m).err = none →
      (∀ j, j < m → (w j).err ≠ none ∧ (w j).cancelled ≠ 1) → ∀ fuel, m + 2 ≤ fuel →
        waitForTcpConn service w fuel
          = some { outcome := Outcome.up, attempts := m + 1, log := upMessage service } := by
    intro w m hm hp fuel hfuel
    obtain ⟨f, rfl⟩ : ∃ f, fuel = (f + 2) + m := ⟨fuel - (m + 2), by omega⟩
    have hp' : ∀ j, j < m → (w (0 + j)).err ≠ none ∧ (w (0 + j)).cancelled ≠ 1 := by
      intro j hj; rw [Nat.zero_add]; exact hp j hj
    obtain ⟨e', he'⟩ := waitForTcpConnLoop_retry service w m 0 (f + 2) "init".toList hp'
    unfold waitForTcpConn
    rw [he', Nat.zero_add]
    simp [waitForTcpConnLoop, cancelCheck, hm]
  refine ⟨key world k hup hprev, ?_, ?_⟩
  · intro w fuel r h
    unfold waitForTcpConn at h
    cases fuel with
    | zero => simp [waitForTcpConnLoop] at h
    | succ fuel =>
      simp only [waitForTcpConnLoop] at h
      split at h
      · simp only [Option.some.injEq] at h
        subst h
        exact Nat.le_refl _
      · exact waitForTcpConnLoop_attempts service w _ _ _ _ h
  · intro w fuel h0 hfuel
    exact key w 0 h0 (fun j hj => absurd hj (Nat.not_lt_zero j)) fuel hfuel

theorem waitForTcpConn_success_first_witness :
    (worldThirdUp 2).err = none ∧ (worldThirdUp 2).cancelled = 1
      ∧ waitForTcpConn serviceA worldThirdUp 4
          = some { outcome := Outcome.up, attempts := 3, log := upMessage serviceA } :=
  ⟨by decide, by decide,
   (waitForTcpConn_success_first serviceA worldThirdUp 2 (by decide) (by decide)).1 4
     (by decide)⟩

/-- Claim C2. The Prober stops at the first failed attempt that observes the
flag set: when attempts `0..k` all fail, the flag reads unset (not 1) after
attempts `0..k-1` and set (1) after attempt `k`, then with enough fuel
`waitForTcpConn` returns the report "timed out" after exactly `k + 1` attempts,
having retried after each earlier failure, and it consults no later attempt:
any world that agrees on attempts `0..k` gives the same report. -/
theorem waitForTcpConn_timeout_first (service : Service) (world : Nat → Attempt) (k : Nat)
    (hfail : ∀ j, j ≤ k → (world j).err ≠ none)
    (hunset : ∀ j, j < k → (world j).cancelled ≠ 1)
    (hset : (world k).cancelled = 1) :
    (∀ fuel, k + 1 ≤ fuel →
        waitForTcpConn service world fuel
          = some { outcome := Outcome.timedOut, attempts := k + 1,
                   log := timedOutMessage service ((world k).err.getD []) })
      ∧ (∀ (w : Nat → Attempt), (∀ j, j ≤ k → w j = world j) → ∀ fuel, k + 1 ≤ fuel →
          waitForTcpConn service w fuel = waitForTcpConn service world fuel) := by
  have key : ∀ (w : Nat → Attempt), (∀ j, j ≤ k → w j = world j) → ∀ fuel, k + 1 ≤ fuel →
      waitForTcpConn service w fuel
        = some { outcome := Outcome.timedOut, attempts := k + 1,
                 log := timedOutMessage service ((world k).err.getD []) } := by
    intro w hw fuel hfuel
    obtain ⟨f, rfl⟩ : ∃ f, fuel = (f + 1) + k := ⟨fuel - (k + 1), by omega⟩
    have hp : ∀ j, j < k → (w (0 + j)).err ≠ none ∧ (w (0 + j)).cancelled ≠ 1 := by
      intro j hj
      rw [Nat.zero_add, hw j (Nat.le_of_lt hj)]
      exact ⟨hfail j (Nat.le_of_lt hj), hunset j hj⟩
    obtain ⟨e', he'⟩ := waitForTcpConnLoop_retry service w k 0 (f + 1) "init".toList hp
    obtain ⟨e, he⟩ := Option.ne_none_iff_exists'.mp (hfail k (Nat.le_refl k))
    unfold waitForTcpConn
    rw [he', Nat.zero_add]
    simp [waitForTcpConnLoop, cancelCheck, hw k (Nat.le_refl k), hset, he]
  refine ⟨key world (fun _ _ => rfl), ?_⟩
  intro w hw fuel hfuel
  rw [key w hw fuel hfuel, key world (fun _ _ => rfl) fuel hfuel]

theorem waitForTcpConn_timeout_first_witness :
    (worldNeverUp 2).cancelled = 1
      ∧ waitForTcpConn serviceA worldNeverUp 3
          = some { outcome := Outcome.timedOut, attempts := 3,
                   log := timedOutMessage serviceA "i/o timeout".toList } :=
  ⟨by decide,
   (waitForTcpConn_timeout_first serviceA worldNeverUp 2 (by decide) (by decide) (by decide)).1 3
     (by decide)⟩

/-- Claim C3. The outcome is decided by `timer.Stop()` alone: in every reachable
state in which `main` stands at the disarm query, the query runs and `main`
ends with `resolve timeout (timer.Stop())`; that is DONE(success), exit status 0
and the line "All services are up!" exactly when the timer has not expired, and
otherwise DONE(timeout), exit status 1 and a line naming the configured timeout.
Replacing the Probers and the counter by any others leaves the result as it is. -/
theorem main_resolves_by_timer_stop (cfg : Config) (es : List Event) (s : State)
    (hrun : run cfg State.init es = some s) (hmain : s.main = MainPc.stopping) :
    ∃ t, step cfg s Event.mainStop = some t
      ∧ t.main = MainPc.exited (resolve cfg.timeout s.timer.Stop.1)
      ∧ t.log = s.log ++ [(resolve cfg.timeout s.timer.Stop.1).message]
      ∧ (s.timer.Stop.1 = true ↔ s.timer ≠ TimerState.expired)
      ∧ ((resolve cfg.timeout s.timer.Stop.1).outcome = RunOutcome.success
          ↔ s.timer ≠ TimerState.expired)
      ∧ (s.timer ≠ TimerState.expired →
          t.main = MainPc.exited { outcome := RunOutcome.success, exitCode := 0,
                                   message := "All services are up!".toList })
      ∧ (s.timer = TimerState.expired →
          t.main = MainPc.exited
            { outcome := RunOutcome.timeout, exitCode := 1,
              message := "Error: One or more services timed out after ".toList
                ++ fmtInt cfg.timeout ++ " second(s)".toList })
      ∧ (∀ (ps : List Prober) (wg : Int),
          (step cfg { s with probers := ps, wg := wg } Event.mainStop).map State.main
            = some t.main) := by
  have h := reachable_inv hrun
  have hstop : s.timer.Stop.1 = true ↔ s.timer ≠ TimerState.expired := by
    rcases h.armed (Or.inr hmain) with ⟨due, hdue⟩ | hexp
    · simp [hdue, TimerState.Stop]
    · simp [hexp, TimerState.Stop]
  refine ⟨{ s with main := MainPc.exited (resolve cfg.timeout s.timer.Stop.1),
                   timer := s.timer.Stop.2,
                   log := s.log ++ [(resolve cfg.timeout s.timer.Stop.1).message] },
    ?_, rfl, rfl, hstop, ?_, ?_, ?_, ?_⟩
  · simp [step, stepRunning, stepMainStop, hmain]
  · rw [← hstop]
    cases s.timer.Stop.1 <;> simp [resolve]
  · intro hne
    have := hstop.mpr hne
    simp [this, resolve]
  · intro hexp
    have : s.timer.Stop.1 = false := by simp [hexp, TimerState.Stop]
    simp [this, resolve]
  · intro ps wg
    simp [step, stepRunning, stepMainStop, hmain]

theorem main_resolves_by_timer_stop_witness :
    run configDown State.init traceDownJoined = some stateDownJoined
      ∧ stateDownJoined.main = MainPc.stopping
      ∧ ∃ t, step configDown stateDownJoined Event.mainStop = some t
          ∧ t.main = MainPc.exited (resolve 2 stateDownJoined.timer.Stop.1) :=
  ⟨by decide, by decide,
   match main_resolves_by_timer_stop configDown traceDownJoined stateDownJoined
      (by decide) (by decide) with
   | ⟨t, h1, h2, _⟩ => ⟨t, h1, h2⟩⟩

/-- Claim C4. With at least one endpoint whose every dial fails, every run that
ends resolves to DONE(timeout) with exit status 1: at the end every Prober has
called `wg.Done()`, the Prober of that endpoint has reported "timed out", the
channel is closed and the timer has expired, so `timer.Stop()` returned false. -/
theorem coordinator_timeout_of_unreachable (cfg : Config) (es : List Event) (s : State)
    (r : Resolution) (i : Nat) (hrun : run cfg State.init es = some s)
    (hi : i < cfg.services.length) (hnever : cfg.neverUp i)
    (hexit : s.main = MainPc.exited r) :
    r = resolve cfg.timeout false ∧ r.outcome = RunOutcome.timeout ∧ r.exitCode = 1
      ∧ s.timer = TimerState.expired ∧ s.cancelSet = true
      ∧ s.reported i Outcome.timedOut = true
      ∧ (∀ (j : Nat) (p : Prober), s.probers[j]? = some p → p.pc = ProberPc.finished) := by
  have h := reachable_inv hrun
  have hm : s.main = MainPc.stopping ∨ ∃ r, s.main = MainPc.exited r := Or.inr ⟨r, hexit⟩
  obtain ⟨hrep, hexp⟩ := h.timedOut_of_neverUp hm i hi hnever
  have hr : r = resolve cfg.timeout false := by
    rcases h.resolved r hexit with ⟨hst, _⟩ | ⟨_, hr⟩
    · rw [hexp] at hst
      simp at hst
    · exact hr
  have hset : s.cancelSet = true := by
    have hcl := h.closed
    have hlen : s.probers.length = cfg.services.length := by
      apply h.allSpawned
      intro j hj
      rw [hexit] at hj
      simp at hj
    have hp : s.probers[i]? = some s.probers[i] := List.getElem?_eq_getElem (by omega)
    have hpi := h.probers i _ hp
    have hto : (s.probers[i]).report = some Outcome.timedOut := by
      simpa [State.reported, hp] using hrep
    have := hpi.woken (Or.inr (hpi.stored (hpi.timedOut hto)))
    simpa [State.cancelSet] using this
  refine ⟨hr, ?_, ?_, hexp, hset, hrep, fun j p hp => h.all_finished hm j p hp⟩
  · rw [hr]; rfl
  · rw [hr]; rfl

theorem coordinator_timeout_of_unreachable_witness :
    run configDown State.init traceDown = some stateDownExited
      ∧ stateDownExited.main = MainPc.exited (resolve 2 false)
      ∧ (resolve 2 false).outcome = RunOutcome.timeout
      ∧ stateDownExited.reported 0 Outcome.timedOut = true :=
  ⟨by decide, by decide,
   (coordinator_timeout_of_unreachable configDown traceDown stateDownExited (resolve 2 false) 0
      (by decide) (by decide) (fun _ => by simp [configDown]) (by decide)).2.1,
   (coordinator_timeout_of_unreachable configDown traceDown stateDownExited (resolve 2 false) 0
      (by decide) (by decide) (fun _ => by simp [configDown]) (by decide)).2.2.2.2.2.1⟩

/-- Claim C5, the code at the failing input. One endpoint that accepts the first
connection, timeout 5 s: its Prober reports "is up" and calls `wg.Done()` at
4.999999999 s with the timer still pending for 5 s; the timer expires at 5 s,
before `main` calls `timer.Stop()`, and the run resolves to DONE(timeout) with
exit status 1, where the claim has DONE(success). This is the race that the
comment of lines 52 to 56 describes. -/
theorem coordinator_race_spurious_timeout :
    (run configUp State.init traceUpReported).map
        (fun s => (s.reported 0 Outcome.up, s.timer, s.now, s.wg))
        = some (true, TimerState.armed 5000000000, 4999999999, 0)
      ∧ (run configUp State.init traceUpRace).map State.main
          = some (MainPc.exited (resolve 5 false))
      ∧ (resolve 5 false).outcome = RunOutcome.timeout
      ∧ (resolve 5 false).exitCode = 1 := by
  decide

/-- Outside the race window the code does resolve to success: when every Prober
has reported "is up" and `main` stands at the disarm query (every Prober has
then called `wg.Done()`), the run resolves to DONE(success) with exit status 0
provided the timer has not expired by then, which is certain when less than
the armed duration has passed since the program started; if the timer has
expired in between, the run resolves to DONE(timeout). -/
theorem coordinator_success_unless_expired (cfg : Config) (es : List Event) (s : State)
    (hrun : run cfg State.init es = some s) (hmain : s.main = MainPc.stopping)
    (hup : ∀ i, i < cfg.services.length → s.reported i Outcome.up = true) :
    (∀ (i : Nat) (p : Prober), s.probers[i]? = some p →
        p.report = some Outcome.up ∧ p.pc = ProberPc.finished)
      ∧ (s.now < timerDuration cfg.timeout → s.timer ≠ TimerState.expired)
      ∧ (s.timer ≠ TimerState.expired →
          ∃ t, step cfg s Event.mainStop = some t
            ∧ t.main = MainPc.exited (resolve cfg.timeout true)
            ∧ (resolve cfg.timeout true).outcome = RunOutcome.success
            ∧ (resolve cfg.timeout true).exitCode = 0)
      ∧ (s.timer = TimerState.expired →
          ∃ t, step cfg s Event.mainStop = some t
            ∧ t.main = MainPc.exited (resolve cfg.timeout false)
            ∧ (resolve cfg.timeout false).outcome = RunOutcome.timeout) := by
  have h := reachable_inv hrun
  refine ⟨?_, ?_, ?_, ?_⟩
  · intro i p hp
    have hlen : s.probers.length = cfg.services.length := by
      apply h.allSpawned
      intro j hj
      rw [hmain] at hj
      simp at hj
    have hi : i < cfg.services.length := by
      rcases Nat.lt_or_ge i s.probers.length with hlt | hge
      · omega
      · rw [List.getElem?_eq_none hge] at hp
        exact absurd hp (by simp)
    have hrep := hup i hi
    simp only [State.reported, hp, beq_iff_eq] at hrep
    exact ⟨hrep, h.all_finished (Or.inl hmain) i p hp⟩
  · intro hnow hexp
    have := h.fired hexp
    omega
  · intro hne
    have hstop : s.timer.Stop.1 = true := by
      rcases h.armed (Or.inr hmain) with ⟨due, hdue⟩ | hexp
      · simp [hdue, TimerState.Stop]
      · exact absurd hexp hne
    refine ⟨_, step_mainStop hmain, ?_, rfl, rfl⟩
    simp [hstop]
  · intro hexp
    have hstop : s.timer.Stop.1 = false := by simp [hexp, TimerState.Stop]
    refine ⟨_, step_mainStop hmain, ?_, rfl⟩
    simp [hstop]

theorem coordinator_success_unless_expired_witness :
    run configUp State.init (traceUpReported ++ [Event.mainWait]) = some stateUpJoined
      ∧ stateUpJoined.main = MainPc.stopping
      ∧ stateUpJoined.reported 0 Outcome.up = true
      ∧ stateUpJoined.now < timerDuration 5
      ∧ stateUpJoined.timer ≠ TimerState.expired :=
  ⟨by decide, by decide, by decide, by decide,
   (coordinator_success_unless_expired configUp (traceUpReported ++ [Event.mainWait])
      stateUpJoined (by decide) (by decide) (by decide)).2.1 (by decide)⟩

/-- Claim C6, counterexample. With no endpoint and timeout 0 the timer is due
the moment it is armed: it expires before `main` calls `timer.Stop()`, with no
time passed and no Prober spawned, and the run resolves to DONE(timeout). The
same happens with timeout 9223372037, whose duration wraps to a negative one. -/
theorem empty_set_timer_fires_first :
    (run (configEmpty 0) State.init traceEmptyFired).map
        (fun s => (s.main, s.now, s.probers))
        = some (MainPc.exited (resolve 0 false), 0, [])
      ∧ (resolve 0 false).outcome = RunOutcome.timeout
      ∧ (run (configEmpty 9223372037) State.init traceEmptyFired).map State.main
          = some (MainPc.exited (resolve 9223372037 false))
      ∧ (resolve 9223372037 false).outcome = RunOutcome.timeout := by
  decide

/-- Claim C6, amended. With no endpoint and any timeout value, every reachable
state has no Prober and a zero counter, so `wg.Wait()` returns as soon as it is
reached; the direct run (arm, wait, stop) resolves to DONE(success); and a run
that ends less than the armed duration after the program started, hence with
the timer not yet expired, resolves to DONE(success) with exit status 0. -/
theorem empty_set_resolution (timeout : Int) (dial : Nat → Nat → Option GoString)
    (es : List Event) (s : State)
    (hrun : run { services := [], timeout := timeout, dial := dial } State.init es = some s) :
    s.probers = [] ∧ s.wg = 0
      ∧ (s.main = MainPc.waiting →
          (step { services := [], timeout := timeout, dial := dial } s Event.mainWait).map
            State.main = some MainPc.stopping)
      ∧ (run { services := [], timeout := timeout, dial := dial } State.init
            [Event.mainArm, Event.mainWait, Event.mainStop]).map State.main
          = some (MainPc.exited (resolve timeout true))
      ∧ (∀ r, s.main = MainPc.exited r → s.now < timerDuration timeout →
          s.timer = TimerState.stopped ∧ r = resolve timeout true
            ∧ r.outcome = RunOutcome.success ∧ r.exitCode = 0) := by
  have h := reachable_inv hrun
  have hnil : s.probers = [] := by
    apply List.eq_nil_of_length_eq_zero
    by_cases hsp : ∃ i, s.main = MainPc.spawning i
    · obtain ⟨i, hi⟩ := hsp
      have := h.spawned i hi
      simp only [List.length_nil] at this
      omega
    · have := h.allSpawned (fun i hi => hsp ⟨i, hi⟩)
      simpa using this
  have hwg : s.wg = 0 := by
    have := h.counter
    rw [hnil] at this
    simpa [pending] using this
  refine ⟨hnil, hwg, ?_, ?_, ?_⟩
  · intro hm
    simp [step, stepRunning, stepMainWait, hm, hwg]
  · simp [run, step, stepRunning, stepMainArm, stepMainWait, stepMainStop, State.init,
      TimerState.Stop]
  · intro r hr hnow
    rcases h.resolved r hr with ⟨hst, hres⟩ | ⟨hexp, _⟩
    · rw [hres]
      exact ⟨hst, rfl, rfl, rfl⟩
    · have := h.fired hexp
      have hlt : s.now < timerDuration timeout := hnow
      have hle : timerDuration timeout ≤ s.now := this
      omega

theorem empty_set_resolution_witness :
    run (configEmpty 60) State.init traceEmptyDirect = some stateEmptyExited
      ∧ stateEmptyExited.probers = [] ∧ stateEmptyExited.wg = 0
      ∧ stateEmptyExited.main = MainPc.exited (resolve 60 true) :=
  ⟨by decide,
   (empty_set_resolution 60 (fun _ _ => none) traceEmptyDirect stateEmptyExited (by decide)).1,
   (empty_set_resolution 60 (fun _ _ => none) traceEmptyDirect stateEmptyExited (by decide)).2.1,
   by decide⟩

/-- Claim C7. The Cancellation Signal is written once and in one direction. In
every reachable state `close(cancel)` has been executed at most once; the only
action that executes it is the function of the timer; a closed channel stays
closed along every continuation of the run; each local flag `cancelled` is 0
or 1, is 1 only when the channel is closed, and an action either leaves it as
it is or takes it from 0 to 1 with the channel closed. -/
theorem cancel_signal_write_once (cfg : Config) (es : List Event) (s t : State) (e : Event)
    (hrun : run cfg State.init es = some s) (hstep : step cfg s e = some t) :
    s.closes ≤ 1 ∧ t.closes ≤ 1
      ∧ (t.closes ≠ s.closes → e = Event.timerClose)
      ∧ (s.cancelSet = true → t.cancelSet = true)
      ∧ (∀ (rest : List Event) (u : State), run cfg t rest = some u →
          s.cancelSet = true → u.cancelSet = true)
      ∧ (∀ (j : Nat) (a : Prober), s.probers[j]? = some a →
          (a.cancelled = 0 ∨ a.cancelled = 1) ∧ (a.cancelled = 1 → s.cancelSet = true))
      ∧ (∀ (j : Nat) (a b : Prober), s.probers[j]? = some a → t.probers[j]? = some b →
          b.cancelled = a.cancelled
            ∨ (a.cancelled = 0 ∧ b.cancelled = 1 ∧ s.cancelSet = true)) := by
  have h := reachable_inv hrun
  have ht := h.step hstep
  obtain ⟨hmono, honly, hflag⟩ := step_cancel h hstep
  refine ⟨h.closes_le_one, ht.closes_le_one, honly, ?_, ?_, ?_, hflag⟩
  · intro hs
    simp only [State.cancelSet, decide_eq_true_eq] at hs ⊢
    omega
  · intro rest u hu hs
    have := run_closes_mono rest t u ht hu
    simp only [State.cancelSet, decide_eq_true_eq] at hs ⊢
    omega
  · intro j a ha
    have hp := h.probers j a ha
    refine ⟨hp.flag, fun h1 => ?_⟩
    have := hp.woken (Or.inr (hp.stored h1))
    simpa [State.cancelSet] using this

theorem cancel_signal_write_once_witness :
    run configDown State.init traceDownClosed = some stateDownClosed
      ∧ step configDown stateDownClosed (Event.watcherStore 0) = some stateDownStored
      ∧ stateDownClosed.closes ≤ 1 ∧ stateDownStored.closes ≤ 1
      ∧ stateDownClosed.cancelSet = true
      ∧ (stateDownClosed.probers.map Prober.cancelled, stateDownStored.probers.map Prober.cancelled)
          = ([0], [1]) :=
  ⟨by decide, by decide,
   (cancel_signal_write_once configDown traceDownClosed stateDownClosed stateDownStored
      (Event.watcherStore 0) (by decide) (by decide)).1,
   (cancel_signal_write_once configDown traceDownClosed stateDownClosed stateDownStored
      (Event.watcherStore 0) (by decide) (by decide)).2.1,
   by decide, by decide⟩

/-- Claim C8. Discovery skips an entry exactly when its port does not parse:
the slice returned by `loadServicesFromEnv` is, in environment order, one
Service for each line whose key ends in `_TCP_ADDR` and whose `<NAME>_TCP_PORT`
value `strconv.Atoi` accepts, with the name, address and port the contract
gives, and nothing else; a line whose key has another ending, whose port value
does not parse, or whose port variable is defined by no line gives no Service. -/
theorem loadServicesFromEnv_refines_spec (environ : List GoString) :
    loadServicesFromEnv environ = specServices environ
      ∧ (∀ line, HasSuffix (splitKey line) addrSuffix = false → specEntry environ line = none)
      ∧ (∀ line, Atoi (Getenv environ
            ((splitKey line).take ((splitKey line).length - 9) ++ portSuffix)) = none →
          specEntry environ line = none)
      ∧ (∀ line, (∀ l ∈ environ, ¬ (l.contains '=' = true ∧
            splitKey l = (splitKey line).take ((splitKey line).length - 9) ++ portSuffix)) →
          specEntry environ line = none) := by
  refine ⟨loadServicesFromEnv_eq_filterMap environ, ?_, ?_, ?_⟩
  · intro line h
    simp [specEntry, h]
  · intro line h
    simp [specEntry, h]
  · intro line h
    have hg := Getenv_undefined environ _ h
    simp [specEntry, hg, Atoi_nil]

/-- Claim C9, counterexample. The environment `_TCP_ADDR=`, `_TCP_PORT=0` makes
`loadServicesFromEnv` return a Service with an empty name, an empty address and
port 0: nothing validates the three fields. -/
theorem loadServicesFromEnv_unvalidated :
    loadServicesFromEnv ["_TCP_ADDR=".toList, "_TCP_PORT=0".toList]
        = [{ Name := [], Address := [], Port := 0 }]
      ∧ ¬ (∀ s ∈ loadServicesFromEnv ["_TCP_ADDR=".toList, "_TCP_PORT=0".toList],
            s.Name ≠ [] ∧ s.Address ≠ [] ∧ 1 ≤ s.Port ∧ s.Port ≤ 65535) := by
  have h : loadServicesFromEnv ["_TCP_ADDR=".toList, "_TCP_PORT=0".toList]
        = [{ Name := [], Address := [], Port := 0 }] := by decide
  refine ⟨h, ?_⟩
  rw [h]
  simp

/-- Claim C9, amended. `loadServicesFromEnv` returns exactly the Services of the
environment entries whose `<NAME>_TCP_PORT` value `strconv.Atoi` parses, and
drops no other entry: a Service is in the slice if and only if some line has a
key that ends in `_TCP_ADDR` and is the name followed by that suffix, the
address is the value of that variable and the port is the integer parsed from
the value of `<NAME>_TCP_PORT`; the slice has one element for each such line;
the port fits a 64-bit `int`. The name and the address may be empty and the
port may be any such integer: in particular an entry with an empty name, an
empty address or a port outside 1 to 65535 is returned, not dropped. -/
theorem loadServicesFromEnv_exact (environ : List GoString) :
    (∀ s : Service, s ∈ loadServicesFromEnv environ ↔
        ∃ line ∈ environ, HasSuffix (splitKey line) addrSuffix = true
          ∧ splitKey line = s.Name ++ addrSuffix
          ∧ s.Address = Getenv environ (splitKey line)
          ∧ Atoi (Getenv environ (s.Name ++ portSuffix)) = some s.Port)
      ∧ (loadServicesFromEnv environ).length
          = environ.countP (fun line => HasSuffix (splitKey line) addrSuffix
              && (Atoi (Getenv environ
                    ((splitKey line).take ((splitKey line).length - 9) ++ portSuffix))).isSome)
      ∧ (∀ s : Service, s ∈ loadServicesFromEnv environ → isInt64 s.Port)
      ∧ (∀ (line : GoString) (port : Int), line ∈ environ →
          HasSuffix (splitKey line) addrSuffix = true →
          Atoi (Getenv environ
            ((splitKey line).take ((splitKey line).length - 9) ++ portSuffix)) = some port →
          ({ Name := (splitKey line).take ((splitKey line).length - 9),
             Address := Getenv environ (splitKey line), Port := port } : Service)
            ∈ loadServicesFromEnv environ) := by
  have hmem : ∀ s : Service, s ∈ loadServicesFromEnv environ ↔
      ∃ line ∈ environ, HasSuffix (splitKey line) addrSuffix = true
        ∧ splitKey line = s.Name ++ addrSuffix
        ∧ s.Address = Getenv environ (splitKey line)
        ∧ Atoi (Getenv environ (s.Name ++ portSuffix)) = some s.Port := by
    intro s
    rw [loadServicesFromEnv_eq_filterMap, List.mem_filterMap]
    constructor
    · rintro ⟨line, hline, hentry⟩
      exact ⟨line, hline, (specEntry_eq_some_iff environ line s).mp hentry⟩
    · rintro ⟨line, hline, hrest⟩
      exact ⟨line, hline, (specEntry_eq_some_iff environ line s).mpr hrest⟩
  refine ⟨hmem, ?_, ?_, ?_⟩
  · rw [loadServicesFromEnv_eq_filterMap]
    exact length_filterMap_specEntry environ environ
  · intro s hs
    obtain ⟨line, _, _, _, _, hport⟩ := (hmem s).mp hs
    exact Atoi_isInt64 _ _ hport
  · intro line port hline hs hport
    rw [loadServicesFromEnv_eq_filterMap, List.mem_filterMap]
    refine ⟨line, hline, ?_⟩
    unfold specEntry
    simp only [hs, if_true, hport, Option.map_some']

/-- Claim C10, counterexample. The `int64` value 9223372037 of the flag gives
the duration -9223372036709551616 ns: the product has wrapped, it is negative,
and it is not `9223372037 * 10^9`. -/
theorem timerDuration_wraps :
    isInt64 9223372037 ∧ timerDuration 9223372037 = -9223372036709551616
      ∧ timerDuration 9223372037 ≠ 9223372037 * 1000000000 := by
  decide

/-- Claim C10, amended. For an `int64` value `t` of the flag, the duration
`time.Duration(t)*time.Second` equals `t * 10^9` nanoseconds exactly when
`-9223372036 ≤ t ≤ 9223372036`; outside that range the product wraps. -/
theorem timerDuration_exact_iff (t : Int) (h : isInt64 t) :
    timerDuration t = t * 1000000000 ↔ (-9223372036 ≤ t ∧ t ≤ 9223372036) := by
  unfold timerDuration
  rw [wrapInt64_of_isInt64 t h]
  unfold wrapInt64 Second
  norm_num
  omega

theorem timerDuration_exact_iff_witness :
    isInt64 60 ∧ (timerDuration 60 = 60 * 1000000000 ↔ (-9223372036 ≤ (60 : Int) ∧ (60 : Int) ≤ 9223372036)) :=
  ⟨by decide, timerDuration_exact_iff 60 (by decide)⟩

end WaitForServices
